import Mathlib

/-!
Verification of the network control plane of the porto container runtime
(src/network.cpp), as a shallow embedding in Lean 4.

Conventions:
* machine integers (`uint64_t`, `uint32_t`, `int`) are modelled as `Nat`
  (or `Int` where the source stores `-1` sentinels); none of the modelled
  arithmetic can overflow at the modelled sizes, except where noted;
* `TError` results are modelled as `Except TError` or as explicit pairs;
* kernel (netlink) interactions are modelled as explicit inputs: link and
  class snapshots are lists, per-operation kernel outcomes are oracle
  functions passed as parameters;
* helper functions whose definitions live outside the provided sources
  (`StringMatch`, `SplitEscapedString`, `StringToInt`, the `TBitMap`
  offset allocator, the tc-handle constants) are modelled from the spec
  and are marked `Modelled from the spec:` in their doc comments.
-/

/-- Error classes of porto's `TError` (only the ones reachable from the
modelled code are listed). -/
inductive EError where
  | InvalidValue
  | Unknown
  | ResourceNotAvailable
  | NlError
deriving DecidableEq

/-- Porto's `TError`: an error class, a numeric code (errno / netlink
error, 0 when absent) and a textual message. -/
structure TError where
  Error : EError
  Code : Nat
  Msg : String
deriving DecidableEq

/-- Short constructor for `TError` values. -/
def mkErr (e : EError) (c : Nat) (m : String) : TError :=
  ⟨e, c, m⟩

/-- Modelled from the spec: `StringMatch(name, pattern)` — the config keys
are glob patterns matched against the device name (fnmatch-style `*` and
`?` wildcards); the helper itself is defined in `util/string.cpp`, which is
not among the provided sources. -/
def globMatch (fuel : Nat) (ps ss : List Char) : Bool :=
  match fuel with
  | 0 => false
  | fuel + 1 =>
    match ps, ss with
    | [], [] => true
    | [], _ :: _ => false
    | '*' :: ps, [] => globMatch fuel ps []
    | '*' :: ps, c :: ss => globMatch fuel ps (c :: ss) || globMatch fuel ('*' :: ps) ss
    | '?' :: _, [] => false
    | '?' :: ps, _ :: ss => globMatch fuel ps ss
    | _ :: _, [] => false
    | p :: ps, c :: ss => p = c && globMatch fuel ps ss

/-- Modelled from the spec: glob match of a device name against a config
pattern. Every recursive step of `globMatch` decreases the combined length
of the two lists, so the fuel below is never exhausted. -/
def StringMatch (name pattern : String) : Bool :=
  globMatch (pattern.data.length + name.data.length + 1) pattern.data name.data

/-- Porto's `TUintMap` — an ordered table of glob-pattern keys to numeric
values. Modelled from the spec: the table type itself is declared in
`util/string.hpp` (not among the provided sources); the spec describes the
resolution as a scan "in insertion order", so the table is modelled as an
association list in insertion order. -/
abbrev TUintMap := List (String × Nat)

/-- Porto's `TStringMap` — same as `TUintMap` with string values. -/
abbrev TStringMap := List (String × String)

/-- The shared body of the two `TNetworkDevice::GetConfig` overloads
(src/network.cpp:72-92): scan the table in order for the first pattern
matching the device name; fall back to the literal key `"default"`; fall
back to the caller-supplied default. -/
def getConfigGen {α : Type} (name : String) (cfg : List (String × α)) (d : α) : α :=
  match cfg.find? (fun it => StringMatch name it.1) with
  | some it => it.2
  | none =>
    match cfg.find? (fun it => it.1 = "default") with
    | some it => it.2
    | none => d

/-- Device snapshot state (`TNetworkDevice`, src/network.hpp). The source
field `Type` is renamed `DevType` (`Type` is a Lean keyword). -/
structure TNetworkDevice where
  Name : String
  DevType : String
  Index : Nat
  Link : Nat
  Group : Nat
  MTU : Nat
  Managed : Bool
  Prepared : Bool
  Missing : Bool
deriving DecidableEq

/-- `TNetworkDevice::GetDesc` (src/network.cpp:68-70). -/
def TNetworkDevice.GetDesc (dev : TNetworkDevice) : String :=
  Nat.repr dev.Index ++ ":" ++ dev.Name ++ " (" ++ dev.DevType ++ ")"

/-- Numeric overload of `TNetworkDevice::GetConfig` (src/network.cpp:72-81).
The default argument of the `def` parameter (0 in the header) is passed
explicitly at call sites. -/
def TNetworkDevice.GetConfig (dev : TNetworkDevice) (cfg : TUintMap) (d : Nat) : Nat :=
  getConfigGen dev.Name cfg d

/-- String overload of `TNetworkDevice::GetConfig` (src/network.cpp:83-92). -/
def TNetworkDevice.GetConfigS (dev : TNetworkDevice) (cfg : TStringMap) (d : String) : String :=
  getConfigGen dev.Name cfg d

/-- `INT32_MAX`, the fallback maximum rate in `TNetwork::AddTC`
(src/network.cpp:771). -/
def INT32MAX : Nat := 2147483647

/-- The maximum rate used by `TNetwork::AddTC` (src/network.cpp:771):
`max_rate = dev.GetConfig(DeviceRate, INT32_MAX)`. -/
def addTCMaxRate (deviceRate : TUintMap) (dev : TNetworkDevice) : Nat :=
  dev.GetConfig deviceRate INT32MAX

/-- The effective HTB rate computed by `TNetwork::AddTC`
(src/network.cpp:763-775): a zero rate is first remapped to 1, then the
result is clamped to `max_rate`. -/
def addTCKernelRate (deviceRate : TUintMap) (dev : TNetworkDevice) (rate : Nat) : Nat :=
  let rate := if rate = 0 then 1 else rate
  let maxRate := addTCMaxRate deviceRate dev
  if rate > maxRate then maxRate else rate

/-- The effective HTB ceil computed by `TNetwork::AddTC`
(src/network.cpp:777-781): a zero ceil, or a ceil above `max_rate`, becomes
`max_rate`. -/
def addTCKernelCeil (deviceRate : TUintMap) (dev : TNetworkDevice) (ceil : Nat) : Nat :=
  let maxRate := addTCMaxRate deviceRate dev
  if ceil = 0 ∨ ceil > maxRate then maxRate else ceil

/-- The MTU-derived tunables of `TNetwork::AddTC` (src/network.cpp:783-785):
quantum, r-buffer and c-buffer default to `2*MTU`, `10*MTU`, `10*MTU`. -/
def addTCQuantum (deviceQuantum : TUintMap) (dev : TNetworkDevice) : Nat :=
  dev.GetConfig deviceQuantum (dev.MTU * 2)

-- ---------------------------------------------------------------------
-- Helper lemmas (shared)
-- ---------------------------------------------------------------------

theorem find?_eq_get_of_first {α : Type} (p : α → Bool) :
    ∀ (l : List α) (i : Nat) (hi : i < l.length),
      p (l.get ⟨i, hi⟩) = true →
      (∀ j (hj : j < i), p (l.get ⟨j, Nat.lt_trans hj hi⟩) = false) →
      l.find? p = some (l.get ⟨i, hi⟩) := by
  intro l
  induction l with
  | nil => intro i hi; simp at hi
  | cons a t ih =>
    intro i hi hp hfirst
    cases i with
    | zero =>
      simp only [List.get] at hp ⊢
      simp [List.find?, hp]
    | succ n =>
      have ha : p a = false := hfirst 0 (Nat.succ_pos n)
      simp only [List.get] at hp ⊢
      rw [List.find?]
      simp only [ha]
      exact ih n (Nat.lt_of_succ_lt_succ hi) hp
        (fun j hj => hfirst (j + 1) (Nat.succ_lt_succ hj))

theorem getConfigGen_first_match {α : Type} (name : String)
    (cfg : List (String × α)) (d : α) (i : Nat) (hi : i < cfg.length) :
    StringMatch name (cfg.get ⟨i, hi⟩).1 = true →
    (∀ j (hj : j < i), StringMatch name (cfg.get ⟨j, Nat.lt_trans hj hi⟩).1 = false) →
    getConfigGen name cfg d = (cfg.get ⟨i, hi⟩).2 := by
  intro hp hfirst
  unfold getConfigGen
  rw [find?_eq_get_of_first (fun it => StringMatch name it.1) cfg i hi hp hfirst]

theorem getConfigGen_default {α : Type} (name : String)
    (cfg : List (String × α)) (d : α)
    (hnm : ∀ it ∈ cfg, StringMatch name it.1 = false)
    (i : Nat) (hi : i < cfg.length) :
    (cfg.get ⟨i, hi⟩).1 = "default" →
    (∀ j (hj : j < i), (cfg.get ⟨j, Nat.lt_trans hj hi⟩).1 ≠ "default") →
    getConfigGen name cfg d = (cfg.get ⟨i, hi⟩).2 := by
  intro hdef hfirst
  unfold getConfigGen
  have hnone : cfg.find? (fun it => StringMatch name it.1) = none := by
    rw [List.find?_eq_none]
    intro it hit
    simp [hnm it hit]
  rw [hnone]
  rw [find?_eq_get_of_first (fun it => it.1 = "default") cfg i hi
    (by simpa using hdef) (fun j hj => by simpa using hfirst j hj)]

theorem getConfigGen_fallback {α : Type} (name : String)
    (cfg : List (String × α)) (d : α)
    (hnm : ∀ it ∈ cfg, StringMatch name it.1 = false ∧ it.1 ≠ "default") :
    getConfigGen name cfg d = d := by
  unfold getConfigGen
  have h1 : cfg.find? (fun it => StringMatch name it.1) = none := by
    rw [List.find?_eq_none]
    intro it hit
    simp [(hnm it hit).1]
  have h2 : cfg.find? (fun it => it.1 = "default") = none := by
    rw [List.find?_eq_none]
    intro it hit
    simp [(hnm it hit).2]
  rw [h1, h2]

-- ---------------------------------------------------------------------
-- C1: GetConfig pattern resolution
-- ---------------------------------------------------------------------

/-- C1: for every device name, ordered config table, and fallback value,
`GetConfig` returns the value of the first table entry (in insertion order)
whose glob-pattern key matches the device name; if no pattern matches, it
returns the value stored under the literal key `"default"` (first such
entry); and if that key is absent, it returns the caller-supplied fallback.
This holds for both the numeric overload (`GetConfig`) and the string
overload (`GetConfigS`). -/
theorem getconfig_first_match_resolution (dev : TNetworkDevice)
    (cfgU : TUintMap) (cfgS : TStringMap) (dU : Nat) (dS : String) :
    ((∀ i (hi : i < cfgU.length),
        StringMatch dev.Name (cfgU.get ⟨i, hi⟩).1 = true →
        (∀ j (hj : j < i), StringMatch dev.Name (cfgU.get ⟨j, Nat.lt_trans hj hi⟩).1 = false) →
        dev.GetConfig cfgU dU = (cfgU.get ⟨i, hi⟩).2) ∧
     ((∀ it ∈ cfgU, StringMatch dev.Name it.1 = false) →
        ∀ i (hi : i < cfgU.length), (cfgU.get ⟨i, hi⟩).1 = "default" →
        (∀ j (hj : j < i), (cfgU.get ⟨j, Nat.lt_trans hj hi⟩).1 ≠ "default") →
        dev.GetConfig cfgU dU = (cfgU.get ⟨i, hi⟩).2) ∧
     ((∀ it ∈ cfgU, StringMatch dev.Name it.1 = false ∧ it.1 ≠ "default") →
        dev.GetConfig cfgU dU = dU)) ∧
    ((∀ i (hi : i < cfgS.length),
        StringMatch dev.Name (cfgS.get ⟨i, hi⟩).1 = true →
        (∀ j (hj : j < i), StringMatch dev.Name (cfgS.get ⟨j, Nat.lt_trans hj hi⟩).1 = false) →
        dev.GetConfigS cfgS dS = (cfgS.get ⟨i, hi⟩).2) ∧
     ((∀ it ∈ cfgS, StringMatch dev.Name it.1 = false) →
        ∀ i (hi : i < cfgS.length), (cfgS.get ⟨i, hi⟩).1 = "default" →
        (∀ j (hj : j < i), (cfgS.get ⟨j, Nat.lt_trans hj hi⟩).1 ≠ "default") →
        dev.GetConfigS cfgS dS = (cfgS.get ⟨i, hi⟩).2) ∧
     ((∀ it ∈ cfgS, StringMatch dev.Name it.1 = false ∧ it.1 ≠ "default") →
        dev.GetConfigS cfgS dS = dS)) := by
  refine ⟨⟨?_, ?_, ?_⟩, ?_, ?_, ?_⟩
  · intro i hi hp hfirst
    exact getConfigGen_first_match dev.Name cfgU dU i hi hp hfirst
  · intro hnm i hi hdef hfirst
    exact getConfigGen_default dev.Name cfgU dU hnm i hi hdef hfirst
  · intro h
    exact getConfigGen_fallback dev.Name cfgU dU h
  · intro i hi hp hfirst
    exact getConfigGen_first_match dev.Name cfgS dS i hi hp hfirst
  · intro hnm i hi hdef hfirst
    exact getConfigGen_default dev.Name cfgS dS hnm i hi hdef hfirst
  · intro h
    exact getConfigGen_fallback dev.Name cfgS dS h

/-- A concrete device used by several witnesses. -/
def witDev : TNetworkDevice :=
  { Name := "eth0", DevType := "ether", Index := 2, Link := 0, Group := 0,
    MTU := 1500, Managed := true, Prepared := false, Missing := false }

/-- Witness for C1: on the table `[("eth*", 7), ("default", 9)]` the device
`eth0` resolves to 7 (first matching pattern), on `[("br0", 7), ("default", 9)]`
it resolves to 9 (the `"default"` key), and on `[("br0", 7)]` to the
fallback 5. -/
theorem getconfig_first_match_resolution_witness :
    witDev.GetConfig [("eth*", 7), ("default", 9)] 5 = 7 ∧
    witDev.GetConfig [("br0", 7), ("default", 9)] 5 = 9 ∧
    witDev.GetConfig [("br0", 7)] 5 = 5 := by
  refine ⟨?_, ?_, ?_⟩
  · have h := (getconfig_first_match_resolution witDev
      [("eth*", 7), ("default", 9)] [] 5 "").1.1 0 (by decide) (by decide)
      (fun j hj => absurd hj (Nat.not_lt_zero j))
    exact h
  · have h := (getconfig_first_match_resolution witDev
      [("br0", 7), ("default", 9)] [] 5 "").1.2.1 (by decide) 1 (by decide)
      (by decide) (fun j hj => by
        have hz : j = 0 := by omega
        subst hz
        exact (by decide : ("br0" : String) ≠ "default"))
    exact h
  · have h := (getconfig_first_match_resolution witDev
      [("br0", 7)] [] 5 "").1.2.2 (by decide)
    exact h

-- ---------------------------------------------------------------------
-- C2: AddTC rate/ceil clamping
-- ---------------------------------------------------------------------

/-- Counterexample for C2 as stated: the device maximum rate is *not*
bounded to fit a 32-bit signed range — `INT32_MAX` is only the fallback
when no `DeviceRate` entry applies (src/network.cpp:771). With the config
table `[("eth0", 2^40)]`, the maximum rate for device `eth0` is `2^40`,
and a requested rate of `2^40` is passed to the kernel unclamped, exceeding
`INT32_MAX`. -/
theorem addtc_rate_exceeds_int32_counterexample :
    addTCMaxRate [("eth0", 1099511627776)] witDev = 1099511627776 ∧
    addTCKernelRate [("eth0", 1099511627776)] witDev 1099511627776 = 1099511627776 ∧
    INT32MAX < 1099511627776 := by
  refine ⟨by decide, by decide, by decide⟩

/-- C2 (amended): for every `AddTC` call, a requested rate of 0 is first
remapped to 1 and then clamped like any other rate; the rate passed to the
kernel never exceeds the device's configured maximum rate; that maximum
equals `INT32_MAX` (so fits the 32-bit signed range) whenever no
`DeviceRate` entry applies to the device, but a configured value is used
as-is, without any 32-bit bound; and a requested ceil of 0, or a ceil
greater than the device maximum, is replaced by the device maximum. -/
theorem addtc_rate_ceil_clamping (deviceRate : TUintMap)
    (dev : TNetworkDevice) (rate ceil : Nat) :
    (addTCKernelRate deviceRate dev rate ≤ addTCMaxRate deviceRate dev) ∧
    (rate = 0 → addTCKernelRate deviceRate dev rate =
      min 1 (addTCMaxRate deviceRate dev)) ∧
    ((∀ it ∈ deviceRate, StringMatch dev.Name it.1 = false ∧ it.1 ≠ "default") →
      addTCMaxRate deviceRate dev = INT32MAX) ∧
    (ceil = 0 ∨ addTCMaxRate deviceRate dev < ceil →
      addTCKernelCeil deviceRate dev ceil = addTCMaxRate deviceRate dev) ∧
    (ceil ≠ 0 → ceil ≤ addTCMaxRate deviceRate dev →
      addTCKernelCeil deviceRate dev ceil = ceil) := by
  refine ⟨?_, ?_, ?_, ?_, ?_⟩
  · unfold addTCKernelRate
    dsimp only
    generalize (if rate = 0 then 1 else rate) = r
    split <;> omega
  · intro h0
    subst h0
    unfold addTCKernelRate
    dsimp only
    simp only [eq_self_iff_true, if_true]
    rcases Nat.lt_or_ge (addTCMaxRate deviceRate dev) 1 with hm | hm
    · rw [if_pos (show 1 > addTCMaxRate deviceRate dev from hm),
        min_eq_right (by omega : addTCMaxRate deviceRate dev ≤ 1)]
    · rw [if_neg (show ¬ 1 > addTCMaxRate deviceRate dev by omega),
        min_eq_left hm]
  · intro h
    unfold addTCMaxRate TNetworkDevice.GetConfig
    exact getConfigGen_fallback dev.Name deviceRate INT32MAX h
  · intro h
    unfold addTCKernelCeil
    dsimp only
    rw [if_pos (show ceil = 0 ∨ ceil > addTCMaxRate deviceRate dev from h)]
  · intro h0 hle
    unfold addTCKernelCeil
    dsimp only
    rw [if_neg]
    push_neg
    exact ⟨h0, by omega⟩

/-- Witness for C2 (amended): on device `eth0` with no applicable config
entry, a requested rate of 0 becomes 1, the maximum is `INT32_MAX`, and a
ceil of 0 becomes `INT32_MAX`. -/
theorem addtc_rate_ceil_clamping_witness :
    addTCKernelRate [] witDev 0 = min 1 (addTCMaxRate [] witDev) ∧
    addTCMaxRate [] witDev = INT32MAX ∧
    addTCKernelCeil [] witDev 0 = addTCMaxRate [] witDev := by
  have h := addtc_rate_ceil_clamping [] witDev 0 0
  exact ⟨h.2.1 rfl, h.2.2.1 (by intro it hit; simp at hit),
    h.2.2.2.1 (Or.inl rfl)⟩

-- ---------------------------------------------------------------------
-- NAT address allocation (C8)
-- ---------------------------------------------------------------------

/-- Address families (`AF_INET`, `AF_INET6`). -/
def AF_INET : Nat := 2

/-- Address family constant `AF_INET6`. -/
def AF_INET6 : Nat := 10

/-- A network address, modelled as a family tag plus its integer value;
`TNlAddr::AddOffset` is value addition and `TNlAddr::GetOffset` is value
subtraction (the spec defines a NAT address as `base + offset`). -/
structure TNlAddrM where
  Family : Nat
  Val : Nat
deriving DecidableEq

/-- The NAT-relevant state of a `TNetwork`: the offset bitmap (`true` =
allocated) and the optional IPv4/IPv6 base addresses (`IsEmpty` base
addresses are modelled as `none`). -/
structure TNatState where
  Bitmap : List Bool
  BaseV4 : Option Nat
  BaseV6 : Option Nat
deriving DecidableEq

/-- Modelled from the spec: `TBitMap::Get` allocates the lowest free
offset (the allocator itself lives in a util source not provided).
Returns the offset and the updated bitmap, or `none` when every offset is
allocated. -/
def bitmapGet : List Bool → Option (Nat × List Bool)
  | [] => none
  | false :: bs => some (0, true :: bs)
  | true :: bs =>
    match bitmapGet bs with
    | none => none
    | some (o, bs) => some (o + 1, true :: bs)

/-- Modelled from the spec: `TBitMap::Put` frees an allocated offset. -/
def bitmapPut (bs : List Bool) (o : Nat) : Except TError (List Bool) :=
  if o < bs.length then .ok (bs.set o false)
  else .error (mkErr .Unknown 0 "offset out of range")

/-- `TNetwork::GetNatAddress` (src/network.cpp:597-618): allocate one
bitmap offset and return `base + offset` for each configured base family
(IPv4 first, then IPv6). -/
def getNatAddress (s : TNatState) : Except TError (TNatState × List TNlAddrM) :=
  match bitmapGet s.Bitmap with
  | none => .error (mkErr .ResourceNotAvailable 0 "Cannot allocate NAT address")
  | some (offset, bm) =>
    let addrs4 : List TNlAddrM :=
      match s.BaseV4 with
      | some base => [{ Family := AF_INET, Val := base + offset }]
      | none => []
    let addrs6 : List TNlAddrM :=
      match s.BaseV6 with
      | some base => [{ Family := AF_INET6, Val := base + offset }]
      | none => []
    .ok ({ s with Bitmap := bm }, addrs4 ++ addrs6)

/-- `TNetwork::PutNatAddress` (src/network.cpp:620-634): the first address
whose family has a configured base determines the offset to free; the
function returns immediately after freeing it. -/
def putNatAddress (s : TNatState) : List TNlAddrM → Except TError TNatState
  | [] => .ok s
  | addr :: rest =>
    match s.BaseV4 with
    | some base =>
      if addr.Family = AF_INET then
        match bitmapPut s.Bitmap (addr.Val - base) with
        | .ok bm => .ok { s with Bitmap := bm }
        | .error e => .error e
      else
        match s.BaseV6 with
        | some base6 =>
          if addr.Family = AF_INET6 then
            match bitmapPut s.Bitmap (addr.Val - base6) with
            | .ok bm => .ok { s with Bitmap := bm }
            | .error e => .error e
          else putNatAddress s rest
        | none => putNatAddress s rest
    | none =>
      match s.BaseV6 with
      | some base6 =>
        if addr.Family = AF_INET6 then
          match bitmapPut s.Bitmap (addr.Val - base6) with
          | .ok bm => .ok { s with Bitmap := bm }
          | .error e => .error e
        else putNatAddress s rest
      | none => putNatAddress s rest

theorem putNatAddress_roundtrip (bm : List Bool) (b4 b6 : Option Nat) (o : Nat)
    (holt : o < bm.length) (hfree : bm.getD o true = false)
    (hbase : b4 ≠ none ∨ b6 ≠ none)
    (hput : bitmapPut (bm.set o true) o = .ok bm) :
    putNatAddress ⟨bm.set o true, b4, b6⟩
      ((b4.elim [] fun base => [⟨AF_INET, base + o⟩]) ++
       (b6.elim [] fun base => [⟨AF_INET6, base + o⟩])) = .ok ⟨bm, b4, b6⟩ := by
  cases b4 with
  | some base =>
    simp only [Option.elim, List.cons_append]
    unfold putNatAddress
    simp only [if_pos rfl, Nat.add_sub_cancel_left, hput]
    simp
  | none =>
    cases b6 with
    | none => simp at hbase
    | some base =>
      simp only [Option.elim, List.nil_append]
      unfold putNatAddress
      simp only [if_pos rfl, Nat.add_sub_cancel_left, hput]
      simp

theorem bitmapGet_spec : ∀ (bs : List Bool) (o : Nat) (bm : List Bool),
    bitmapGet bs = some (o, bm) →
    o < bs.length ∧ bs.getD o true = false ∧
    (∀ j, j < o → bs.getD j true = true) ∧ bm = bs.set o true := by
  intro bs
  induction bs with
  | nil => intro o bm h; simp [bitmapGet] at h
  | cons b t ih =>
    intro o bm h
    cases b with
    | false =>
      simp only [bitmapGet] at h
      cases h
      refine ⟨Nat.succ_pos _, rfl, ?_, rfl⟩
      intro j hj
      omega
    | true =>
      simp only [bitmapGet] at h
      cases htail : bitmapGet t with
      | none => rw [htail] at h; simp at h
      | some p =>
        rw [htail] at h
        obtain ⟨o', bs'⟩ := p
        simp only at h
        cases h
        obtain ⟨h1, h2, h3, h4⟩ := ih o' bs' htail
        refine ⟨Nat.succ_lt_succ h1, h2, ?_, by rw [h4]; rfl⟩
        intro j hj
        cases j with
        | zero => rfl
        | succ n => exact h3 n (Nat.lt_of_succ_lt_succ hj)

theorem bitmapGet_none (bs : List Bool) (h : ∀ b ∈ bs, b = true) :
    bitmapGet bs = none := by
  induction bs with
  | nil => rfl
  | cons b t ih =>
    have hb : b = true := h b (List.mem_cons_self b t)
    subst hb
    simp only [bitmapGet]
    rw [ih (fun x hx => h x (List.mem_cons_of_mem _ hx))]

theorem list_set_true_then_false (bs : List Bool) (o : Nat)
    (h : bs.getD o true = false) : (bs.set o true).set o false = bs := by
  induction bs generalizing o with
  | nil => simp
  | cons b t ih =>
    cases o with
    | zero =>
      simp only [List.getD_cons_zero] at h
      subst h
      rfl
    | succ n =>
      simp only [List.getD_cons_succ] at h
      simp only [List.set]
      rw [ih n h]

-- ---------------------------------------------------------------------
-- C8: NAT address Get/Put
-- ---------------------------------------------------------------------

/-- C8: `GetNatAddress` allocates a single bitmap offset (the lowest free
one) and returns one address per configured base family, each equal to
that family's base plus the same offset, so v4 and v6 reservations advance
in lock-step; it fails once every offset is allocated; and `PutNatAddress`
of the returned addresses restores the original state exactly, making the
offset available to the next `GetNatAddress`. -/
theorem nat_address_lockstep_roundtrip (s : TNatState) :
    ((∀ b ∈ s.Bitmap, b = true) →
      getNatAddress s = .error (mkErr .ResourceNotAvailable 0 "Cannot allocate NAT address")) ∧
    (∀ s' addrs, getNatAddress s = .ok (s', addrs) →
      ∃ o, o < s.Bitmap.length ∧ s.Bitmap.getD o true = false ∧
        (∀ j, j < o → s.Bitmap.getD j true = true) ∧
        s' = { s with Bitmap := s.Bitmap.set o true } ∧
        addrs = (s.BaseV4.elim [] fun base => [⟨AF_INET, base + o⟩]) ++
                (s.BaseV6.elim [] fun base => [⟨AF_INET6, base + o⟩]) ∧
        ((s.BaseV4 ≠ none ∨ s.BaseV6 ≠ none) →
          putNatAddress s' addrs = .ok s)) := by
  constructor
  · intro hall
    unfold getNatAddress
    rw [bitmapGet_none s.Bitmap hall]
  · intro s' addrs h
    unfold getNatAddress at h
    cases hbg : bitmapGet s.Bitmap with
    | none => rw [hbg] at h; exact absurd h (by simp)
    | some p =>
      obtain ⟨o, bm⟩ := p
      rw [hbg] at h
      simp only [Except.ok.injEq, Prod.mk.injEq] at h
      obtain ⟨hs', haddrs⟩ := h
      obtain ⟨holt, hfree, hlow, hbm⟩ := bitmapGet_spec s.Bitmap o bm hbg
      subst hbm
      refine ⟨o, holt, hfree, hlow, by rw [← hs'], ?_, ?_⟩
      · rw [← haddrs]
        cases h4 : s.BaseV4 <;> cases h6 : s.BaseV6 <;> simp [h4, h6, Option.elim]
      · intro hbase
        have hlen : (s.Bitmap.set o true).length = s.Bitmap.length := by
          simp
        have hput : bitmapPut (s.Bitmap.set o true) o = .ok s.Bitmap := by
          unfold bitmapPut
          rw [if_pos (by omega)]
          rw [list_set_true_then_false s.Bitmap o hfree]
        have haddrs' : addrs =
            (s.BaseV4.elim [] fun base => [⟨AF_INET, base + o⟩]) ++
            (s.BaseV6.elim [] fun base => [⟨AF_INET6, base + o⟩]) := by
          rw [← haddrs]
          cases s.BaseV4 <;> cases s.BaseV6 <;> simp [Option.elim]
        rw [← hs', haddrs']
        obtain ⟨sbm, sb4, sb6⟩ := s
        exact putNatAddress_roundtrip sbm sb4 sb6 o holt hfree hbase hput

/-- Witness for C8: with a two-slot bitmap, an IPv4 base of 100 and no
IPv6 base, `GetNatAddress` yields offset 0 and address 100, and
`PutNatAddress` of the result restores the empty bitmap. -/
theorem nat_address_lockstep_roundtrip_witness :
    getNatAddress ⟨[false, false], some 100, none⟩ =
      .ok (⟨[true, false], some 100, none⟩, [⟨AF_INET, 100⟩]) ∧
    putNatAddress ⟨[true, false], some 100, none⟩ [⟨AF_INET, 100⟩] =
      .ok ⟨[false, false], some 100, none⟩ := by
  have hget : getNatAddress ⟨[false, false], some 100, none⟩ =
      .ok (⟨[true, false], some 100, none⟩, [⟨AF_INET, 100⟩]) := by rfl
  have h := (nat_address_lockstep_roundtrip ⟨[false, false], some 100, none⟩).2
    ⟨[true, false], some 100, none⟩ [⟨AF_INET, 100⟩] hget
  obtain ⟨o, _, _, _, _, _, hput⟩ := h
  exact ⟨hget, hput (Or.inl (by simp))⟩

-- ---------------------------------------------------------------------
-- Network registry (C9)
-- ---------------------------------------------------------------------

/-- An abstract identity for a `std::shared_ptr<TNetwork>` instance. -/
abbrev NetRef := Nat

/-- The process-wide `Networks` map (src/network.cpp:24): namespace inode →
weakly-held network manager. A weak entry is modelled as the manager
identity plus an external liveness oracle `alive` (a weak pointer is
expired exactly when its manager is no longer alive). -/
abbrev NetRegistry := List (Nat × NetRef)

/-- Insert-or-overwrite for the registry (`Networks[inode] = net`). -/
def regInsert (reg : NetRegistry) (inode : Nat) (net : NetRef) : NetRegistry :=
  match reg with
  | [] => [(inode, net)]
  | e :: rest =>
    if e.1 = inode then (inode, net) :: rest
    else e :: regInsert rest inode net

/-- `TNetwork::AddNetwork` (src/network.cpp:94-104): store the entry, then
sweep every expired entry from the whole map. -/
def addNetwork (alive : NetRef → Bool) (reg : NetRegistry) (inode : Nat)
    (net : NetRef) : NetRegistry :=
  (regInsert reg inode net).filter (fun e => alive e.2)

/-- `TNetwork::GetNetwork` (src/network.cpp:106-112): look the inode up and
lock the weak entry — a live manager, or null. -/
def getNetwork (alive : NetRef → Bool) (reg : NetRegistry) (inode : Nat) :
    Option NetRef :=
  match reg.find? (fun e => e.1 = inode) with
  | some e => if alive e.2 then some e.2 else none
  | none => none

theorem regInsert_find (reg : NetRegistry) (inode : Nat) (net : NetRef) :
    (regInsert reg inode net).find? (fun e => e.1 = inode) = some (inode, net) := by
  induction reg with
  | nil => simp [regInsert, List.find?]
  | cons e rest ih =>
    unfold regInsert
    by_cases he : e.1 = inode
    · simp [he, List.find?]
    · simp only [if_neg he]
      rw [List.find?]
      simp only [decide_eq_true_eq, he, decide_False]
      exact ih

theorem find?_filter_comm {α : Type} (p q : α → Bool) (l : List α) (a : α)
    (hfind : l.find? p = some a) (hq : q a = true) :
    (l.filter q).find? p = some a := by
  induction l with
  | nil => simp [List.find?] at hfind
  | cons x rest ih =>
    rw [List.find?] at hfind
    by_cases hp : p x = true
    · rw [hp] at hfind
      simp only [Option.some.injEq] at hfind
      subst hfind
      rw [List.filter]
      rw [hq]
      rw [List.find?, hp]
    · have hp' : p x = false := by
        cases h : p x
        · rfl
        · exact absurd h hp
      rw [hp'] at hfind
      rw [List.filter]
      cases hqx : q x with
      | true =>
        rw [List.find?, hp']
        exact ih hfind
      | false =>
        exact ih hfind

-- ---------------------------------------------------------------------
-- C9: registry sweep and lookup
-- ---------------------------------------------------------------------

/-- C9: after any `AddNetwork(inode, net)` call the registry holds no
expired entries and its entry for `inode` refers to `net`; `GetNetwork`
returns the live manager for as long as it is alive — in particular after
two `AddNetwork` calls with the same inode and a live manager — and
returns null when the entry is absent or its manager is no longer alive. -/
theorem registry_sweep_and_lookup (alive : NetRef → Bool) (reg : NetRegistry)
    (inode : Nat) (net : NetRef) :
    (∀ e ∈ addNetwork alive reg inode net, alive e.2 = true) ∧
    (alive net = true →
      (addNetwork alive reg inode net).find? (fun e => e.1 = inode) =
        some (inode, net)) ∧
    (alive net = true →
      getNetwork alive (addNetwork alive reg inode net) inode = some net) ∧
    (alive net = true →
      getNetwork alive
        (addNetwork alive (addNetwork alive reg inode net) inode net) inode =
        some net) ∧
    (∀ reg' : NetRegistry,
      (reg'.find? (fun e => e.1 = inode) = none →
        getNetwork alive reg' inode = none) ∧
      (∀ e, reg'.find? (fun e => e.1 = inode) = some e → alive e.2 = false →
        getNetwork alive reg' inode = none)) := by
  have hfind : ∀ (r : NetRegistry), alive net = true →
      (addNetwork alive r inode net).find? (fun e => e.1 = inode) =
        some (inode, net) := by
    intro r halive
    unfold addNetwork
    exact find?_filter_comm _ _ _ _ (regInsert_find r inode net) halive
  refine ⟨?_, ?_, ?_, ?_, ?_⟩
  · intro e he
    unfold addNetwork at he
    exact (List.mem_filter.mp he).2
  · exact hfind reg
  · intro halive
    unfold getNetwork
    rw [hfind reg halive]
    simp [halive]
  · intro halive
    unfold getNetwork
    rw [hfind _ halive]
    simp [halive]
  · intro reg'
    constructor
    · intro hnone
      unfold getNetwork
      rw [hnone]
    · intro e hsome hdead
      unfold getNetwork
      rw [hsome]
      simp [hdead]

/-- Witness for C9: adding inode 5 with live manager 7 over a registry
holding a dead entry for inode 5 and a dead entry for inode 6 leaves
`GetNetwork 5 = 7`, and every surviving entry is alive (the dead inode-6
entry was swept). -/
theorem registry_sweep_and_lookup_witness :
    getNetwork (fun r => decide (r = 7))
      (addNetwork (fun r => decide (r = 7)) [(5, 3), (6, 3)] 5 7) 5 = some 7 ∧
    (∀ e ∈ addNetwork (fun r => decide (r = 7)) [(5, 3), (6, 3)] 5 7,
      (fun r => decide (r = 7)) e.2 = true) := by
  have h := registry_sweep_and_lookup (fun r => decide (r = 7)) [(5, 3), (6, 3)] 5 7
  exact ⟨h.2.2.1 (by decide), h.1⟩

-- ---------------------------------------------------------------------
-- CreateTC / DestroyTC fan-out (C7)
-- ---------------------------------------------------------------------

/-- Modelled from the spec: the tc class handle constants from porto's
headers (not among the provided sources). The spec fixes the minors:
root class 1, default class 2, porto (platform) root class 3, under
major 1; `TC_HANDLE(maj, min)` packs major and minor into one 32-bit
handle. -/
def TC_HANDLE (maj minr : Nat) : Nat := maj * 65536 + minr

/-- Major number of the root qdisc/class tree. -/
def ROOT_TC_MAJOR : Nat := 1

/-- Minor of the root qdisc handle. -/
def ROOT_TC_MINOR : Nat := 0

/-- Minor of the default class. -/
def DEFAULT_TC_MINOR : Nat := 2

/-- Container id of the root container (minor of the namespace-root
class). -/
def ROOT_CONTAINER_ID : Nat := 1

/-- Container id of the porto root container (minor of the platform-root
class). -/
def PORTO_ROOT_CONTAINER_ID : Nat := 3

/-- The per-device default rate chosen by `TNetwork::CreateTC`
(src/network.cpp:867-873): the namespace-root handle draws from
`DeviceRate`, the platform-root handle from `PortoRate`, every other
handle from `ContainerRate`. -/
def createTCDefRate (deviceRate portoRate containerRate : TUintMap)
    (handle : Nat) (dev : TNetworkDevice) : Nat :=
  if handle = TC_HANDLE ROOT_TC_MAJOR ROOT_CONTAINER_ID then
    dev.GetConfig deviceRate 0
  else if handle = TC_HANDLE ROOT_TC_MAJOR PORTO_ROOT_CONTAINER_ID then
    dev.GetConfig portoRate 0
  else
    dev.GetConfig containerRate 0

/-- `TNetwork::CreateTC` (src/network.cpp:860-885): fan `AddTC` out over
every managed device, remember only the first error, attempt all devices.
The kernel outcome of each `AddTC` is an oracle `res`; the returned list
records, per attempted device, the name and the prio/rate/ceil passed to
`AddTC`. -/
def createTC (deviceRate portoRate containerRate : TUintMap)
    (res : TNetworkDevice → Option TError) (devices : List TNetworkDevice)
    (handle : Nat) (prio rate ceil : TUintMap) :
    Option TError × List (String × Nat × Nat × Nat) :=
  match devices with
  | [] => (none, [])
  | dev :: rest =>
    if dev.Managed then
      let defRate := createTCDefRate deviceRate portoRate containerRate handle dev
      let args := (dev.Name, dev.GetConfig prio 0, dev.GetConfig rate defRate,
        dev.GetConfig ceil (dev.GetConfig deviceRate 0))
      let (result, atts) :=
        createTC deviceRate portoRate containerRate res rest handle prio rate ceil
      (match res dev with
       | some e => some e
       | none => result, args :: atts)
    else createTC deviceRate portoRate containerRate res rest handle prio rate ceil

/-- `TNetwork::DestroyTC` (src/network.cpp:887-902): fan `DelTC` out over
every managed device, remember only the first error, attempt all. -/
def destroyTC (res : TNetworkDevice → Option TError)
    (devices : List TNetworkDevice) : Option TError × List String :=
  match devices with
  | [] => (none, [])
  | dev :: rest =>
    if dev.Managed then
      let (result, atts) := destroyTC res rest
      (match res dev with
       | some e => some e
       | none => result, dev.Name :: atts)
    else destroyTC res rest

-- ---------------------------------------------------------------------
-- C7: fan-out attempts all managed devices, returns first error
-- ---------------------------------------------------------------------

/-- C7: `CreateTC` and `DestroyTC` attempt the class operation on every
managed device even when earlier devices fail — the attempt list is
exactly the managed sublist, in order — and return the first error
encountered (success when none failed). In `CreateTC` the default rate is
selected by handle identity: `DeviceRate` for the namespace-root handle,
`PortoRate` for the platform-root handle, `ContainerRate` otherwise. -/
theorem create_destroy_tc_fanout (deviceRate portoRate containerRate : TUintMap)
    (res resD : TNetworkDevice → Option TError) (devices : List TNetworkDevice)
    (handle : Nat) (prio rate ceil : TUintMap) :
    (createTC deviceRate portoRate containerRate res devices handle prio rate ceil =
      ((devices.filter (fun d => d.Managed)).findSome? res,
       (devices.filter (fun d => d.Managed)).map (fun dev =>
         (dev.Name, dev.GetConfig prio 0,
          dev.GetConfig rate
            (if handle = TC_HANDLE ROOT_TC_MAJOR ROOT_CONTAINER_ID then
              dev.GetConfig deviceRate 0
             else if handle = TC_HANDLE ROOT_TC_MAJOR PORTO_ROOT_CONTAINER_ID then
              dev.GetConfig portoRate 0
             else dev.GetConfig containerRate 0),
          dev.GetConfig ceil (dev.GetConfig deviceRate 0))))) ∧
    (destroyTC resD devices =
      ((devices.filter (fun d => d.Managed)).findSome? resD,
       (devices.filter (fun d => d.Managed)).map (fun d => d.Name))) := by
  induction devices with
  | nil => exact ⟨rfl, rfl⟩
  | cons dev rest ih =>
    constructor
    · rw [createTC]
      cases hm : dev.Managed with
      | false =>
        simp only [Bool.false_eq_true, if_false]
        rw [List.filter]
        rw [hm]
        exact ih.1
      | true =>
        simp only [if_true]
        rw [ih.1]
        rw [List.filter]
        rw [hm]
        simp only [List.findSome?, List.map]
        cases res dev <;> simp [createTCDefRate]
    · rw [destroyTC]
      cases hm : dev.Managed with
      | false =>
        simp only [Bool.false_eq_true, if_false]
        rw [List.filter]
        rw [hm]
        exact ih.2
      | true =>
        simp only [if_true]
        rw [ih.2]
        rw [List.filter]
        rw [hm]
        simp only [List.findSome?, List.map]
        cases resD dev <;> simp

-- ---------------------------------------------------------------------
-- DelTC recursive deletion (C3)
-- ---------------------------------------------------------------------

/-- Outcome of one kernel `rtnl_class_delete` call: success, the class was
not found (`-NLE_OBJ_NOTFOUND`), or another failure with a netlink error
code (`-NLE_BUSY` is `fail nleBusy`). -/
inductive DelRes where
  | ok
  | notfound
  | fail (code : Nat)
deriving DecidableEq

/-- Netlink error code `NLE_BUSY`. -/
def nleBusy : Nat := 25

/-- A delete result stops the cascade (`ret < 0 && ret != -NLE_OBJ_NOTFOUND`,
src/network.cpp:848). -/
def delStops : DelRes → Bool
  | .ok => false
  | .notfound => false
  | .fail _ => true

/-- The error built from a failed delete (`Nl->Error(ret, "Cannot remove
traffic class at " + dev.GetDesc())`, src/network.cpp:854). -/
def delFailErr (dev : TNetworkDevice) (code : Nat) : TError :=
  mkErr .NlError code ("Cannot remove traffic class at " ++ dev.GetDesc)

/-- The handles of the snapshot entries whose parent is `h`
(src/network.cpp:833-839, inner loop). A snapshot entry is a
`(handle, parent)` pair from the class cache. -/
def childrenOf (cache : List (Nat × Nat)) (h : Nat) : List Nat :=
  (cache.filter (fun c => c.2 = h)).map (fun c => c.1)

/-- The breadth-first collection loop of `TNetwork::DelTC`
(src/network.cpp:832-840), written as the equivalent worklist recursion:
`done ++ todo` is the `handles` vector and `done.length` is the loop
index `i`; each step appends the children of `handles[i]` to the vector.
The fuel only bounds the number of iterations; it is never exhausted on
the tree-shaped snapshots the kernel produces (completeness below is
proved under the corresponding size hypothesis). -/
def collectW (cache : List (Nat × Nat)) : Nat → List Nat → List Nat → List Nat
  | 0, done, todo => done ++ todo
  | _ + 1, done, [] => done
  | fuel + 1, done, h :: todo =>
    collectW cache fuel (done ++ [h]) (todo ++ childrenOf cache h)

/-- The set of handles collected by `DelTC`'s breadth-first traversal,
starting from `handle` (src/network.cpp:823-840). -/
def collectHandles (cache : List (Nat × Nat)) (handle : Nat) : List Nat :=
  collectW cache ((cache.length + 1) * (cache.length + 1)) [] [handle]

/-- The reverse-order deletion loop of `TNetwork::DelTC`
(src/network.cpp:844-850), applied to the already-reversed handle list:
delete each handle in turn, continue past `ok`/`notfound`, break on any
other result. Returns the last delete's result and the list of handles
actually attempted, in deletion order. -/
def cascadeDel (res : Nat → DelRes) : List Nat → DelRes × List Nat
  | [] => (.ok, [])
  | [h] => (res h, [h])
  | h :: h2 :: t =>
    if delStops (res h) then (res h, [h])
    else
      let p := cascadeDel res (h2 :: t)
      (p.1, h :: p.2)

/-- `TNetwork::DelTC` (src/network.cpp:806-858). `res0` is the kernel
outcome of the initial delete, `res` the per-handle outcomes during the
cascade, `cacheRes` the class-cache snapshot (or the cache allocation
error). Returns the overall result and the handles attempted during the
cascade, in deletion order. -/
def delTC (dev : TNetworkDevice) (res0 : DelRes) (res : Nat → DelRes)
    (cacheRes : Except TError (List (Nat × Nat))) (handle : Nat) :
    Except TError Unit × List Nat :=
  match res0 with
  | .ok => (.ok (), [])
  | .notfound => (.ok (), [])
  | .fail c =>
    if c = nleBusy then
      match cacheRes with
      | .error e => (.error e, [])
      | .ok snap =>
        let hs := collectHandles snap handle
        let p := cascadeDel res hs.reverse
        (match p.1 with
         | .fail c2 => .error (delFailErr dev c2)
         | _ => .ok (), p.2)
    else (.error (delFailErr dev c), [])

theorem collectW_mem_mono (cache : List (Nat × Nat)) :
    ∀ (fuel : Nat) (done todo : List Nat) (x : Nat),
      x ∈ done ++ todo → x ∈ collectW cache fuel done todo := by
  intro fuel
  induction fuel with
  | zero => intro done todo x hx; exact hx
  | succ n ih =>
    intro done todo x hx
    cases todo with
    | nil => rw [collectW]; simpa using hx
    | cons h t =>
      rw [collectW]
      apply ih
      simp only [List.mem_append, List.mem_cons] at hx ⊢
      rcases hx with hx | hx | hx
      · exact Or.inl (Or.inl hx)
      · exact Or.inl (Or.inr (by simp [hx]))
      · exact Or.inr (Or.inl hx)

theorem collectW_prefix (cache : List (Nat × Nat)) :
    ∀ (fuel : Nat) (done todo : List Nat),
      ∃ rest, collectW cache fuel done todo = done ++ rest := by
  intro fuel
  induction fuel with
  | zero => intro done todo; exact ⟨todo, rfl⟩
  | succ n ih =>
    intro done todo
    cases todo with
    | nil => exact ⟨[], by rw [collectW]; simp⟩
    | cons h t =>
      rw [collectW]
      obtain ⟨rest, hrest⟩ := ih (done ++ [h]) (t ++ childrenOf cache h)
      exact ⟨[h] ++ rest, by rw [hrest]; simp⟩

theorem collectW_minimal (cache : List (Nat × Nat)) (S : Nat → Prop)
    (hclosed : ∀ y, S y → ∀ c ∈ cache, c.2 = y → S c.1) :
    ∀ (fuel : Nat) (done todo : List Nat),
      (∀ x ∈ done, S x) → (∀ x ∈ todo, S x) →
      ∀ x ∈ collectW cache fuel done todo, S x := by
  intro fuel
  induction fuel with
  | zero =>
    intro done todo hdone htodo x hx
    rw [collectW] at hx
    rcases List.mem_append.mp hx with hx | hx
    · exact hdone x hx
    · exact htodo x hx
  | succ n ih =>
    intro done todo hdone htodo x hx
    cases todo with
    | nil => rw [collectW] at hx; exact hdone x hx
    | cons h t =>
      rw [collectW] at hx
      refine ih (done ++ [h]) (t ++ childrenOf cache h) ?_ ?_ x hx
      · intro y hy
        rcases List.mem_append.mp hy with hy | hy
        · exact hdone y hy
        · simp only [List.mem_singleton] at hy
          subst hy
          exact htodo y (List.mem_cons_self _ _)
      · intro y hy
        rcases List.mem_append.mp hy with hy | hy
        · exact htodo y (List.mem_cons_of_mem _ hy)
        · unfold childrenOf at hy
          obtain ⟨c, hc, hc1⟩ := List.mem_map.mp hy
          have hcc := List.mem_filter.mp hc
          subst hc1
          exact hclosed h (htodo h (List.mem_cons_self _ _)) c hcc.1
            (by simpa using hcc.2)

theorem collectW_sound (cache : List (Nat × Nat)) (handle : Nat) :
    ∀ (fuel : Nat) (done todo : List Nat),
      (∀ x ∈ done ++ todo, x = handle ∨
        ∃ c ∈ cache, c.1 = x ∧ c.2 ∈ done ++ todo) →
      ∀ x ∈ collectW cache fuel done todo, x = handle ∨
        ∃ c ∈ cache, c.1 = x ∧ c.2 ∈ collectW cache fuel done todo := by
  intro fuel
  induction fuel with
  | zero =>
    intro done todo hinv x hx
    rw [collectW] at hx ⊢
    exact hinv x hx
  | succ n ih =>
    intro done todo hinv x hx
    cases todo with
    | nil =>
      rw [collectW] at hx ⊢
      rcases hinv x (by simpa using hx) with h | ⟨c, hc, hc1, hc2⟩
      · exact Or.inl h
      · exact Or.inr ⟨c, hc, hc1, by simpa using hc2⟩
    | cons h t =>
      rw [collectW] at hx ⊢
      refine ih (done ++ [h]) (t ++ childrenOf cache h) ?_ x hx
      intro y hy
      have hmem : y ∈ done ++ h :: t ∨ y ∈ childrenOf cache h := by
        simp only [List.mem_append, List.mem_cons, List.mem_singleton] at hy ⊢
        tauto
      rcases hmem with hy' | hy'
      · rcases hinv y hy' with hcase | ⟨c, hc, hc1, hc2⟩
        · exact Or.inl hcase
        · refine Or.inr ⟨c, hc, hc1, ?_⟩
          simp only [List.mem_append, List.mem_cons, List.mem_singleton] at hc2 ⊢
          tauto
      · unfold childrenOf at hy'
        obtain ⟨c, hc, hc1⟩ := List.mem_map.mp hy'
        have hcc := List.mem_filter.mp hc
        refine Or.inr ⟨c, hcc.1, hc1, ?_⟩
        have : c.2 = h := by simpa using hcc.2
        simp [this]

theorem collectW_complete (cache : List (Nat × Nat)) :
    ∀ (fuel : Nat) (done todo : List Nat),
      (∀ x ∈ done, ∀ c ∈ cache, c.2 = x → c.1 ∈ done ++ todo) →
      (collectW cache fuel done todo).length ≤ done.length + fuel →
      ∀ x ∈ collectW cache fuel done todo, ∀ c ∈ cache, c.2 = x →
        c.1 ∈ collectW cache fuel done todo := by
  intro fuel
  induction fuel with
  | zero =>
    intro done todo hinv hlen x hx c hc hcx
    rw [collectW] at hlen hx ⊢
    have htodo : todo = [] := by
      have := List.length_append done todo ▸ hlen
      have h0 : todo.length = 0 := by omega
      exact List.length_eq_zero.mp h0
    subst htodo
    exact hinv x (by simpa using hx) c hc hcx
  | succ n ih =>
    intro done todo hinv hlen x hx c hc hcx
    cases todo with
    | nil =>
      rw [collectW] at hlen hx ⊢
      have := hinv x hx c hc hcx
      simpa using this
    | cons h t =>
      rw [collectW] at hlen hx ⊢
      refine ih (done ++ [h]) (t ++ childrenOf cache h) ?_ ?_ x hx c hc hcx
      · intro y hy c' hc' hcy
        rcases List.mem_append.mp hy with hy' | hy'
        · have := hinv y hy' c' hc' hcy
          simp only [List.mem_append, List.mem_cons, List.mem_singleton] at this ⊢
          tauto
        · simp only [List.mem_singleton] at hy'
          subst hy'
          have : c'.1 ∈ childrenOf cache y := by
            unfold childrenOf
            exact List.mem_map.mpr ⟨c', List.mem_filter.mpr ⟨hc', by simp [hcy]⟩, rfl⟩
          simp only [List.mem_append]
          tauto
      · simp only [List.length_append, List.length_singleton] at hlen ⊢
        omega

theorem dropLast_cons_ne_nil {α : Type} (a : α) (l : List α) (h : l ≠ []) :
    (a :: l).dropLast = a :: l.dropLast := by
  cases l with
  | nil => exact absurd rfl h
  | cons b t => rfl

theorem getLastD_indep {α : Type} (l : List α) (h : l ≠ []) (d d' : α) :
    l.getLastD d = l.getLastD d' := by
  cases l with
  | nil => exact absurd rfl h
  | cons b t =>
    rw [List.getLastD_cons, List.getLastD_cons]

theorem cascadeDel_spec (res : Nat → DelRes) :
    ∀ l : List Nat, l ≠ [] →
      (cascadeDel res l).2 ≠ [] ∧
      (∃ rest, l = (cascadeDel res l).2 ++ rest ∧
        (delStops (cascadeDel res l).1 = false → rest = [])) ∧
      (∀ x ∈ (cascadeDel res l).2.dropLast, delStops (res x) = false) ∧
      (cascadeDel res l).1 = res ((cascadeDel res l).2.getLastD 0) := by
  intro l
  induction l with
  | nil => intro h; exact absurd rfl h
  | cons h t ih =>
    intro _
    cases t with
    | nil =>
      refine ⟨by simp [cascadeDel], ⟨[], by simp [cascadeDel], fun _ => rfl⟩,
        ?_, ?_⟩
      · intro x hx
        simp [cascadeDel] at hx
      · simp [cascadeDel]
    | cons h2 t2 =>
      by_cases hstop : delStops (res h) = true
      · rw [show cascadeDel res (h :: h2 :: t2) = (res h, [h]) by
          rw [cascadeDel]; rw [if_pos hstop]]
        refine ⟨by simp, ⟨h2 :: t2, by simp, fun hc => ?_⟩, ?_, by simp⟩
        · rw [hstop] at hc; cases hc
        · intro x hx
          simp [List.dropLast] at hx
      · have hstop' : delStops (res h) = false := by
          cases hd : delStops (res h)
          · rfl
          · exact absurd hd hstop
        rw [show cascadeDel res (h :: h2 :: t2) =
            ((cascadeDel res (h2 :: t2)).1, h :: (cascadeDel res (h2 :: t2)).2) by
          rw [cascadeDel]; rw [if_neg hstop]]
        obtain ⟨hne, ⟨rest, hdec, hrest⟩, hcont, hlast⟩ := ih (by simp)
        refine ⟨by simp, ⟨rest, ?_, hrest⟩, ?_, ?_⟩
        · simp only [List.cons_append]
          rw [← hdec]
        · intro x hx
          rw [dropLast_cons_ne_nil h _ hne] at hx
          rcases List.mem_cons.mp hx with hx | hx
          · subst hx; exact hstop'
          · exact hcont x hx
        · simp only
          rw [hlast, List.getLastD_cons,
            getLastD_indep (cascadeDel res (h2 :: t2)).2 hne h 0]

theorem collectHandles_head (cache : List (Nat × Nat)) (handle : Nat) :
    ∃ rest, collectHandles cache handle = handle :: rest := by
  unfold collectHandles
  have hpos : 0 < (cache.length + 1) * (cache.length + 1) :=
    Nat.mul_pos (Nat.succ_pos _) (Nat.succ_pos _)
  obtain ⟨m, hm⟩ := Nat.exists_eq_succ_of_ne_zero (Nat.pos_iff_ne_zero.mp hpos)
  rw [hm, collectW]
  obtain ⟨rest, hrest⟩ := collectW_prefix cache m ([] ++ [handle])
    ([] ++ childrenOf cache handle)
  exact ⟨rest, by rw [hrest]; simp⟩

-- ---------------------------------------------------------------------
-- C3: DelTC busy-path cascade
-- ---------------------------------------------------------------------

/-- Counterexample for C3 as stated: with snapshot `[(2,1),(3,2)]` (class 2
under 1, class 3 under 2) and `DelTC` of handle 1 reporting busy, the
collection order is `[1, 2, 3]` and deletion proceeds in reverse: handle 3
— the deepest-collected descendant — is deleted first (outcome ok), the
delete of handle 2 fails with code 5, and the cascade stops, leaving the
*earlier*-collected handles 2 and 1 (the shallower descendant and the
original handle) undeleted while the deeper-collected handle 3 was already
deleted. The claim's "leaving deeper-collected descendants undeleted" is
therefore false: the attempted (deleted) handles are exactly `[3, 2]` and
the unattempted remainder is the shallow prefix `[1]`. -/
theorem deltc_cascade_shallow_undeleted_counterexample :
    collectHandles [(2, 1), (3, 2)] 1 = [1, 2, 3] ∧
    delTC witDev (.fail nleBusy)
      (fun h => if h = 3 then .ok else if h = 2 then .fail 5 else .ok)
      (.ok [(2, 1), (3, 2)]) 1 =
      (.error (delFailErr witDev 5), [3, 2]) := by
  exact ⟨by rfl, by rfl⟩

/-- C3 (amended): when the initial delete reports busy, `DelTC` takes one
snapshot of the class set and computes, over that snapshot only, the
breadth-first descendant closure of the handle (sound, minimal, and
complete whenever the collection stays within snapshot size, as it does on
the tree-shaped class sets the kernel maintains); it then issues deletes in
reverse collection order — leaves first, original handle last; a not-found
result is treated as success and the cascade continues; any other delete
error stops the cascade immediately and is returned, leaving the
*earlier-collected (shallower) handles, up to and including the original
handle,* undeleted. -/
theorem deltc_busy_cascade (dev : TNetworkDevice) (res : Nat → DelRes)
    (snap : List (Nat × Nat)) (handle : Nat)
    (hs : List Nat) (hhs : hs = collectHandles snap handle)
    (r : DelRes) (att : List Nat)
    (hra : cascadeDel res hs.reverse = (r, att))
    (out : Except TError Unit × List Nat)
    (hout : out = delTC dev (.fail nleBusy) res (.ok snap) handle) :
    out.2 = att ∧
    hs.headD 0 = handle ∧ handle ∈ hs ∧
    (∀ x ∈ hs, x = handle ∨ ∃ c ∈ snap, c.1 = x ∧ c.2 ∈ hs) ∧
    (∀ S : Nat → Prop, S handle →
      (∀ y, S y → ∀ c ∈ snap, c.2 = y → S c.1) → ∀ x ∈ hs, S x) ∧
    (hs.length ≤ snap.length + 1 →
      ∀ x ∈ hs, ∀ c ∈ snap, c.2 = x → c.1 ∈ hs) ∧
    att ≠ [] ∧
    (∃ pre, hs = pre ++ att.reverse ∧ (delStops r = false → pre = [])) ∧
    (∀ x ∈ att.dropLast, delStops (res x) = false) ∧
    r = res (att.getLastD 0) ∧
    (∀ c, r = .fail c → out.1 = .error (delFailErr dev c)) ∧
    (delStops r = false →
      out.1 = .ok () ∧ att = hs.reverse ∧ att.getLastD 0 = handle) := by
  obtain ⟨tl, htl⟩ := collectHandles_head snap handle
  have hdel : delTC dev (.fail nleBusy) res (.ok snap) handle =
      ((match (cascadeDel res (collectHandles snap handle).reverse).1 with
        | .fail c2 => .error (delFailErr dev c2)
        | _ => .ok ()),
       (cascadeDel res (collectHandles snap handle).reverse).2) := rfl
  rw [← hhs, hra] at hdel
  have hsne : hs ≠ [] := by rw [hhs, htl]; simp
  have hrevne : hs.reverse ≠ [] := by
    intro hcon
    exact hsne (List.reverse_eq_nil_iff.mp hcon)
  have hspec := cascadeDel_spec res hs.reverse hrevne
  rw [hra] at hspec
  obtain ⟨hattne, ⟨rest, hdec, hrest⟩, hcont, hlast⟩ := hspec
  refine ⟨by rw [hout, hdel], ?_, ?_, ?_, ?_, ?_, hattne, ?_, hcont, hlast,
    ?_, ?_⟩
  · rw [hhs, htl]; rfl
  · rw [hhs, htl]; exact List.mem_cons_self _ _
  · rw [hhs]
    unfold collectHandles
    apply collectW_sound snap handle
    intro x hx
    simp only [List.nil_append, List.mem_singleton] at hx
    exact Or.inl hx
  · intro S hS hclosed
    rw [hhs]
    unfold collectHandles
    apply collectW_minimal snap S hclosed
    · intro x hx; simp at hx
    · intro x hx
      simp only [List.mem_singleton] at hx
      subst hx; exact hS
  · intro hlen
    rw [hhs]
    rw [hhs] at hlen
    unfold collectHandles at hlen ⊢
    apply collectW_complete snap _ [] [handle]
    · intro x hx; simp at hx
    · have hle : snap.length + 1 ≤ (snap.length + 1) * (snap.length + 1) :=
        Nat.le_mul_of_pos_left _ (Nat.succ_pos _)
      simpa using Nat.le_trans hlen hle
  · refine ⟨rest.reverse, ?_, fun hns => by rw [hrest hns]; rfl⟩
    have := congrArg List.reverse hdec
    rw [List.reverse_reverse, List.reverse_append] at this
    exact this
  · intro c hc
    rw [hout, hdel, hc]
  · intro hns
    have hrnil : rest = [] := hrest hns
    subst hrnil
    have hatt : att = hs.reverse := by rw [hdec, List.append_nil]
    refine ⟨?_, hatt, ?_⟩
    · rw [hout, hdel]
      cases r with
      | ok => rfl
      | notfound => rfl
      | fail c => simp [delStops] at hns
    · rw [hatt, List.getLastD_eq_getLast?, List.getLast?_reverse,
        ← List.headD_eq_head?, hhs, htl]
      rfl

/-- Witness for C3 (amended): snapshot `[(2,1)]`, handle 1, every cascade
delete succeeding — collection is `[1, 2]`, deletion order is `[2, 1]`
(leaf first, original handle last), the overall result is success, and the
completeness conjunct yields `2 ∈ collectHandles`. -/
theorem deltc_busy_cascade_witness :
    (delTC witDev (.fail nleBusy) (fun _ => .ok) (.ok [(2, 1)]) 1).1 = .ok () ∧
    (delTC witDev (.fail nleBusy) (fun _ => .ok) (.ok [(2, 1)]) 1).2 = [2, 1] ∧
    2 ∈ collectHandles [(2, 1)] 1 := by
  have h := deltc_busy_cascade witDev (fun _ => .ok) [(2, 1)] 1 [1, 2] (by rfl)
    .ok [2, 1] (by rfl) _ rfl
  obtain ⟨h1, h2, h3, h4, h5, h6, h7, h8, h9, h10, h11, h12⟩ := h
  exact ⟨(h12 rfl).1, h1, h6 (by decide) 1 (by decide) (2, 1) (by decide) rfl⟩

-- ---------------------------------------------------------------------
-- RefreshDevices reconciliation (C6)
-- ---------------------------------------------------------------------

/-- A kernel link as enumerated from the link cache: the fields
`rtnl_link_get_*` reads plus the two flag bits and the qdisc kind that
`RefreshDevices` inspects (`IFF_LOOPBACK`, `IFF_RUNNING`,
`rtnl_link_get_qdisc`). -/
structure RawLink where
  name : String
  ltype : String
  index : Nat
  link : Nat
  group : Nat
  mtu : Nat
  loopback : Bool
  running : Bool
  qdisc : String
deriving DecidableEq

/-- The process-wide unmanaged-device configuration read by the
`TNetworkDevice` constructor (src/network.cpp:27-28), passed explicitly. -/
structure NetConf where
  UnmanagedDevices : List String
  UnmanagedGroups : List Nat
deriving DecidableEq

/-- Modelled from the spec: `StringStartsWith` (util/string.cpp, not among
the provided sources) — literal prefix test. -/
def strStartsAux : List Char → List Char → Bool
  | [], _ => true
  | _ :: _, [] => false
  | p :: ps, c :: cs => p = c && strStartsAux ps cs

/-- Literal prefix test on strings. -/
def strStarts (s pre : String) : Bool :=
  strStartsAux pre.data s.data

/-- The `TNetworkDevice` constructor (src/network.cpp:47-66): fresh
device snapshot from a link; managed unless an unmanaged-device pattern
matches the name or the group is an unmanaged group. -/
def mkDevice (conf : NetConf) (l : RawLink) : TNetworkDevice :=
  { Name := l.name, DevType := l.ltype, Index := l.index, Link := l.link,
    Group := l.group, MTU := l.mtu,
    Managed := !(conf.UnmanagedDevices.any (fun p => StringMatch l.name p) ||
                 conf.UnmanagedGroups.any (fun g => g = l.group)),
    Prepared := false, Missing := false }

/-- The per-link admission filter of `RefreshDevices`
(src/network.cpp:388-401): skip loopback; outside a managed namespace skip
non-running links; skip the runtime's own veth peers (`portove-` and `L3-`
name prefixes). -/
def linkAdmitted (managedNamespace : Bool) (l : RawLink) : Bool :=
  !l.loopback &&
  (managedNamespace || l.running) &&
  !(l.ltype = "veth" && (strStarts l.name "portove-" || strStarts l.name "L3-"))

/-- The in-place update applied to a matched tracked device
(src/network.cpp:411-415): overwrite with the fresh snapshot; if the
device is managed and the link's qdisc is not `htb` the device stays
unprepared ("needs requeue"), otherwise it is marked prepared. -/
def updEntry (dev : TNetworkDevice) (qdisc : String) : TNetworkDevice :=
  if dev.Managed = true ∧ qdisc ≠ "htb" then dev
  else { dev with Prepared := true }

/-- Match-by-(name, index)-then-update-or-append (src/network.cpp:407-424). -/
def matchUpdate (dev : TNetworkDevice) (qdisc : String) :
    List TNetworkDevice → List TNetworkDevice
  | [] => [dev]
  | d :: ds =>
    if d.Name = dev.Name ∧ d.Index = dev.Index then
      updEntry dev qdisc :: ds
    else d :: matchUpdate dev qdisc ds

/-- Processing of one admitted cache link (src/network.cpp:395-424):
construct the snapshot, force `Managed` inside a managed namespace, then
update-or-append. -/
def mergeLink (conf : NetConf) (managedNamespace : Bool)
    (devices : List TNetworkDevice) (l : RawLink) : List TNetworkDevice :=
  let dev0 := mkDevice conf l
  let dev := if managedNamespace then { dev0 with Managed := true } else dev0
  matchUpdate dev l.qdisc devices

/-- The device-list reconciliation of `RefreshDevices`
(src/network.cpp:381-435): mark every tracked device missing, fold the
admitted cache links through update-or-append, then drop the devices
still missing. -/
def refreshMerge (conf : NetConf) (managedNamespace : Bool)
    (devices : List TNetworkDevice) (cache : List RawLink) :
    List TNetworkDevice :=
  let marked := devices.map (fun d => { d with Missing := true })
  let merged := cache.foldl (fun ds l =>
    if linkAdmitted managedNamespace l then
      mergeLink conf managedNamespace ds l
    else ds) marked
  merged.filter (fun d => !d.Missing)

/-- The setup loop of `RefreshDevices` (src/network.cpp:437-444): every
managed unprepared device goes through `SetupQueue` (modelled as the
oracle `setup`; on success the device becomes prepared); the first setup
error aborts the pass; each successful setup sets the new-managed-devices
flag. -/
def refreshSetup (setup : TNetworkDevice → Option TError) :
    List TNetworkDevice → Bool → Except TError (List TNetworkDevice × Bool)
  | [], nm => .ok ([], nm)
  | d :: ds, nm =>
    if d.Managed = true ∧ d.Prepared = false then
      match setup d with
      | some e => .error e
      | none =>
        match refreshSetup setup ds true with
        | .ok (rest, nm2) => .ok ({ d with Prepared := true } :: rest, nm2)
        | .error e => .error e
    else
      match refreshSetup setup ds nm with
      | .ok (rest, nm2) => .ok (d :: rest, nm2)
      | .error e => .error e

/-- `TNetwork::RefreshDevices` (src/network.cpp:372-447): link enumeration
(given as `enum`, an error when `rtnl_link_alloc_cache` failed), device
reconciliation, then queue setup. Returns the new device list and the
new-managed-devices flag. -/
def refreshDevices (conf : NetConf) (managedNamespace : Bool)
    (setup : TNetworkDevice → Option TError)
    (enum : Except TError (List RawLink))
    (devices : List TNetworkDevice) (newManagedDevices : Bool) :
    Except TError (List TNetworkDevice × Bool) :=
  match enum with
  | .error e => .error e
  | .ok cache =>
    refreshSetup setup (refreshMerge conf managedNamespace devices cache)
      newManagedDevices

/-- The (name, index) identity by which tracked devices are matched. -/
def devKey (d : TNetworkDevice) : String × Nat := (d.Name, d.Index)

/-- The (name, index) identity of a cache link. -/
def linkKey (l : RawLink) : String × Nat := (l.name, l.index)

/-- Keys of the tracked devices not marked missing. -/
def notMissingKeys (ds : List TNetworkDevice) : List (String × Nat) :=
  (ds.filter (fun d => !d.Missing)).map devKey

theorem nmk_cons (d : TNetworkDevice) (ds : List TNetworkDevice) :
    notMissingKeys (d :: ds) =
      if d.Missing then notMissingKeys ds else devKey d :: notMissingKeys ds := by
  unfold notMissingKeys
  rw [List.filter_cons]
  cases hm : d.Missing
  · simp
  · simp

theorem updEntry_Missing (dev : TNetworkDevice) (q : String) :
    (updEntry dev q).Missing = dev.Missing := by
  unfold updEntry
  split <;> rfl

theorem updEntry_key (dev : TNetworkDevice) (q : String) :
    devKey (updEntry dev q) = devKey dev := by
  unfold updEntry
  split <;> rfl

theorem notMissingKeys_matchUpdate (dev : TNetworkDevice) (q : String)
    (hmiss : dev.Missing = false) :
    ∀ (ds : List TNetworkDevice) (k : String × Nat),
      k ∈ notMissingKeys (matchUpdate dev q ds) ↔
      k ∈ notMissingKeys ds ∨ k = devKey dev := by
  intro ds
  induction ds with
  | nil =>
    intro k
    rw [matchUpdate, nmk_cons]
    rw [hmiss]
    simp [notMissingKeys]
  | cons d ds ih =>
    intro k
    rw [matchUpdate]
    by_cases hmatch : d.Name = dev.Name ∧ d.Index = dev.Index
    · rw [if_pos hmatch]
      have hkey : devKey d = devKey dev := by
        unfold devKey
        rw [hmatch.1, hmatch.2]
      rw [nmk_cons, nmk_cons, updEntry_Missing, updEntry_key, hmiss]
      cases hdm : d.Missing
      · simp only [Bool.false_eq_true, if_false, List.mem_cons, hkey]
        tauto
      · simp only [if_true, Bool.false_eq_true, if_false, List.mem_cons]
        tauto
    · rw [if_neg hmatch]
      rw [nmk_cons, nmk_cons]
      cases hdm : d.Missing
      · simp only [Bool.false_eq_true, if_false, List.mem_cons, ih k]
        tauto
      · simp only [if_true, ih k]

theorem mergeLink_key (conf : NetConf) (mns : Bool) (l : RawLink) :
    devKey (if mns then { mkDevice conf l with Managed := true }
            else mkDevice conf l) = linkKey l := by
  cases mns <;> rfl

theorem mergeLink_Missing (conf : NetConf) (mns : Bool) (l : RawLink) :
    (if mns then { mkDevice conf l with Managed := true }
     else mkDevice conf l).Missing = false := by
  cases mns <;> rfl

theorem notMissingKeys_mergeLink (conf : NetConf) (mns : Bool)
    (ds : List TNetworkDevice) (l : RawLink) (k : String × Nat) :
    k ∈ notMissingKeys (mergeLink conf mns ds l) ↔
    k ∈ notMissingKeys ds ∨ k = linkKey l := by
  unfold mergeLink
  rw [notMissingKeys_matchUpdate _ _ (mergeLink_Missing conf mns l) ds k,
    mergeLink_key conf mns l]

theorem notMissingKeys_fold (conf : NetConf) (mns : Bool) :
    ∀ (cache : List RawLink) (ds : List TNetworkDevice) (k : String × Nat),
      k ∈ notMissingKeys (cache.foldl (fun ds l =>
        if linkAdmitted mns l then mergeLink conf mns ds l else ds) ds) ↔
      k ∈ notMissingKeys ds ∨
        k ∈ (cache.filter (linkAdmitted mns)).map linkKey := by
  intro cache
  induction cache with
  | nil =>
    intro ds k
    simp
  | cons l cache ih =>
    intro ds k
    rw [List.foldl_cons, List.filter_cons]
    cases hadm : linkAdmitted mns l
    · simp only [Bool.false_eq_true, if_false]
      exact ih ds k
    · simp only [if_true]
      rw [ih (mergeLink conf mns ds l) k]
      rw [notMissingKeys_mergeLink conf mns ds l k]
      simp only [List.map_cons, List.mem_cons]
      tauto

theorem notMissingKeys_marked (devices : List TNetworkDevice) :
    notMissingKeys (devices.map (fun d => { d with Missing := true })) = [] := by
  induction devices with
  | nil => rfl
  | cons d ds ih =>
    rw [List.map_cons, nmk_cons]
    simp only [if_true]
    exact ih

theorem refreshMerge_keys (conf : NetConf) (mns : Bool)
    (devices : List TNetworkDevice) (cache : List RawLink) (k : String × Nat) :
    k ∈ (refreshMerge conf mns devices cache).map devKey ↔
    k ∈ (cache.filter (linkAdmitted mns)).map linkKey := by
  unfold refreshMerge
  have : ((cache.foldl (fun ds l =>
      if linkAdmitted mns l then mergeLink conf mns ds l else ds)
      (devices.map (fun d => { d with Missing := true }))).filter
      (fun d => !d.Missing)).map devKey =
      notMissingKeys (cache.foldl (fun ds l =>
        if linkAdmitted mns l then mergeLink conf mns ds l else ds)
        (devices.map (fun d => { d with Missing := true }))) := rfl
  rw [this, notMissingKeys_fold conf mns cache _ k,
    notMissingKeys_marked devices]
  simp

theorem refreshSetup_ok (setup : TNetworkDevice → Option TError)
    (hok : ∀ d, setup d = none) :
    ∀ (ds : List TNetworkDevice) (nm : Bool),
      ∃ ds' nm', refreshSetup setup ds nm = .ok (ds', nm') ∧
        ds'.map devKey = ds.map devKey := by
  intro ds
  induction ds with
  | nil => intro nm; exact ⟨[], nm, rfl, rfl⟩
  | cons d ds ih =>
    intro nm
    rw [refreshSetup]
    by_cases hc : d.Managed = true ∧ d.Prepared = false
    · rw [if_pos hc, hok d]
      obtain ⟨ds', nm', hds', hkeys⟩ := ih true
      rw [hds']
      exact ⟨{ d with Prepared := true } :: ds', nm', rfl, by
        rw [List.map_cons, List.map_cons, hkeys]; rfl⟩
    · rw [if_neg hc]
      obtain ⟨ds', nm', hds', hkeys⟩ := ih nm
      rw [hds']
      exact ⟨d :: ds', nm', rfl, by rw [List.map_cons, List.map_cons, hkeys]⟩

theorem refreshSetup_error (setup : TNetworkDevice → Option TError) (e : TError) :
    ∀ (pre : List TNetworkDevice) (d : TNetworkDevice)
      (post : List TNetworkDevice) (nm : Bool),
      (∀ p ∈ pre, ¬(p.Managed = true ∧ p.Prepared = false)) →
      d.Managed = true → d.Prepared = false → setup d = some e →
      refreshSetup setup (pre ++ d :: post) nm = .error e := by
  intro pre
  induction pre with
  | nil =>
    intro d post nm _ hm hp hset
    rw [List.nil_append, refreshSetup, if_pos ⟨hm, hp⟩, hset]
  | cons p pre ih =>
    intro d post nm hskip hm hp hset
    rw [List.cons_append, refreshSetup,
      if_neg (hskip p (List.mem_cons_self _ _))]
    rw [ih d post nm (fun x hx => hskip x (List.mem_cons_of_mem _ hx)) hm hp hset]

-- ---------------------------------------------------------------------
-- C6: RefreshDevices reconciliation pass
-- ---------------------------------------------------------------------

/-- C6: after a successful `RefreshDevices` pass, the tracked device list
contains exactly (by (name, index) identity) the links observed in that
pass's enumeration — excluding loopback, excluding non-running links when
the namespace is not runtime-managed, and excluding veth peers with the
runtime's reserved name prefixes — so every previously tracked device not
observed is removed; an enumeration error aborts the pass unchanged; and a
`SetupQueue` error on the first managed unprepared device reached aborts
the pass and is returned. -/
theorem refresh_devices_reconciliation (conf : NetConf) (mns : Bool)
    (setup : TNetworkDevice → Option TError)
    (devices : List TNetworkDevice) (nm : Bool) :
    (∀ e, refreshDevices conf mns setup (.error e) devices nm = .error e) ∧
    (∀ cache : List RawLink, (∀ d, setup d = none) →
      ∃ ds' nm', refreshDevices conf mns setup (.ok cache) devices nm =
        .ok (ds', nm') ∧
        ∀ k, k ∈ ds'.map devKey ↔
          k ∈ (cache.filter (linkAdmitted mns)).map linkKey) ∧
    (∀ (cache : List RawLink) (e : TError) (pre : List TNetworkDevice)
        (d : TNetworkDevice) (post : List TNetworkDevice),
      refreshMerge conf mns devices cache = pre ++ d :: post →
      (∀ p ∈ pre, ¬(p.Managed = true ∧ p.Prepared = false)) →
      d.Managed = true → d.Prepared = false → setup d = some e →
      refreshDevices conf mns setup (.ok cache) devices nm = .error e) := by
  refine ⟨fun e => rfl, ?_, ?_⟩
  · intro cache hok
    obtain ⟨ds', nm', hds', hkeys⟩ :=
      refreshSetup_ok setup hok (refreshMerge conf mns devices cache) nm
    refine ⟨ds', nm', hds', ?_⟩
    intro k
    rw [hkeys]
    exact refreshMerge_keys conf mns devices cache k
  · intro cache e pre d post hmerge hskip hm hp hset
    show refreshSetup setup (refreshMerge conf mns devices cache) nm = .error e
    rw [hmerge]
    exact refreshSetup_error setup e pre d post nm hskip hm hp hset

/-- A concrete link used by the C6 witness. -/
def witLink : RawLink :=
  { name := "eth0", ltype := "ether", index := 2, link := 0, group := 0,
    mtu := 1500, loopback := false, running := true, qdisc := "" }

/-- Witness for C6: an enumeration error is returned unchanged, and with
one admitted link whose `SetupQueue` fails, the pass returns that setup
error. -/
theorem refresh_devices_reconciliation_witness :
    refreshDevices ⟨[], []⟩ false (fun _ => some (mkErr .Unknown 0 "boom"))
      (.error (mkErr .Unknown 5 "enum")) [] false =
      .error (mkErr .Unknown 5 "enum") ∧
    refreshDevices ⟨[], []⟩ false (fun _ => some (mkErr .Unknown 0 "boom"))
      (.ok [witLink]) [] false = .error (mkErr .Unknown 0 "boom") := by
  have h := refresh_devices_reconciliation ⟨[], []⟩ false
    (fun _ => some (mkErr .Unknown 0 "boom")) [] false
  refine ⟨h.1 (mkErr .Unknown 5 "enum"), ?_⟩
  exact h.2.2 [witLink] (mkErr .Unknown 0 "boom") [] (mkDevice ⟨[], []⟩ witLink)
    [] (by rfl) (by intro p hp; simp at hp) (by rfl) (by rfl) (by rfl)

-- ---------------------------------------------------------------------
-- Network specification parser (C4, C5, C10)
-- ---------------------------------------------------------------------

/-- Whitespace characters recognised by `StringTrim`. -/
def isSpaceChar (c : Char) : Bool :=
  c = ' ' || c = '\t' || c = '\n' || c = '\r'

/-- Modelled from the spec: `StringTrim` (util/string.cpp, not among the
provided sources) — strip leading and trailing whitespace. -/
def trimChars (s : String) : String :=
  String.mk (((s.data.dropWhile isSpaceChar).reverse.dropWhile isSpaceChar).reverse)

/-- Helper for `splitNet`: split a character list on spaces, dropping
empty tokens, accumulating the current token reversed. -/
def splitNetAux : List Char → List Char → List String
  | [], acc => if acc.isEmpty then [] else [String.mk acc.reverse]
  | c :: cs, acc =>
    if c = ' ' then
      if acc.isEmpty then splitNetAux cs []
      else String.mk acc.reverse :: splitNetAux cs []
    else splitNetAux cs (c :: acc)

/-- Modelled from the spec: `SplitEscapedString(line, settings, ' ')`
(util/string.cpp, not among the provided sources) — the spec describes the
grammar as line-oriented and whitespace-delimited, so a line is split into
its space-separated tokens. -/
def splitNet (line : String) : List String :=
  splitNetAux line.data []

/-- Digit accumulator for `stringToIntM`. -/
def digitsToNatAux : List Char → Nat → Option Nat
  | [], acc => some acc
  | c :: cs, acc =>
    if c.isDigit then digitsToNatAux cs (acc * 10 + (c.toNat - 48)) else none

/-- All-digit parse of a non-empty character list. -/
def digitsToNat : List Char → Option Nat
  | [] => none
  | cs => digitsToNatAux cs 0

/-- Modelled from the spec: `StringToInt` (util/string.cpp, not among the
provided sources) — decimal integer with optional sign. -/
def stringToIntM (s : String) : Option Int :=
  match s.data with
  | '-' :: cs => (digitsToNat cs).map (fun n => -(n : Int))
  | '+' :: cs => (digitsToNat cs).map (fun n => (n : Int))
  | cs => (digitsToNat cs).map (fun n => (n : Int))

/-- Modelled from the spec: `TNlLink::ValidMacVlanType` (util/netlink.cpp,
not among the provided sources) — the kernel macvlan modes. -/
def ValidMacVlanType (t : String) : Bool :=
  t == "bridge" || t == "private" || t == "vepa" || t == "passthru"

/-- Modelled from the spec: `TNlLink::ValidIpVlanMode` (util/netlink.cpp,
not among the provided sources) — the kernel ipvlan modes. -/
def ValidIpVlanMode (m : String) : Bool :=
  m == "l2" || m == "l3"

/-- Hexadecimal digit test. -/
def isHexDigitC (c : Char) : Bool :=
  c.isDigit || ('a' ≤ c && c ≤ 'f') || ('A' ≤ c && c ≤ 'F')

/-- Split on a separator, keeping empty groups (for MAC syntax). -/
def splitKeepAux (sep : Char) : List Char → List Char → List String
  | [], acc => [String.mk acc.reverse]
  | c :: cs, acc =>
    if c = sep then String.mk acc.reverse :: splitKeepAux sep cs []
    else splitKeepAux sep cs (c :: acc)

/-- Modelled from the spec: `TNlLink::ValidMacAddr` (util/netlink.cpp, not
among the provided sources) — six colon-separated hex byte groups. -/
def ValidMacAddr (s : String) : Bool :=
  let parts := splitKeepAux ':' s.data []
  parts.length == 6 && parts.all (fun p => p.data.length == 2 && p.data.all isHexDigitC)

/-- `TMacVlanNetCfg` (network.hpp): one parsed macvlan descriptor. -/
structure TMacVlanNetCfg where
  Master : String
  Name : String
  MvType : String
  Hw : String
  Mtu : Int
deriving DecidableEq

/-- `TIpVlanNetCfg`: one parsed ipvlan descriptor. -/
structure TIpVlanNetCfg where
  Master : String
  Name : String
  Mode : String
  Mtu : Int
deriving DecidableEq

/-- `TVethNetCfg`: one parsed veth descriptor. -/
structure TVethNetCfg where
  Name : String
  Bridge : String
  Hw : String
  Peer : String
  Mtu : Int
deriving DecidableEq

/-- `TL3NetCfg`: one parsed L3/NAT descriptor (the source field `Nat` is
renamed `NatMode`; the `Addrs` field is only populated by `ParseIp`, which
is outside the modelled claims, and is omitted). -/
structure TL3NetCfg where
  Name : String
  Master : String
  NatMode : Bool
  Mtu : Int
deriving DecidableEq

/-- `TNetCfg` (network.hpp): the parse state of one network specification
(the fields `ParseNet` touches, plus the container `Id` used for veth peer
naming). -/
structure TNetCfg where
  NewNetNs : Bool
  Inherited : Bool
  Steal : List String
  MacVlan : List TMacVlanNetCfg
  IpVlan : List TIpVlanNetCfg
  Veth : List TVethNetCfg
  L3lan : List TL3NetCfg
  Autoconf : List String
  NetNsName : String
  NetCtName : String
  Id : Nat
deriving DecidableEq

/-- `TNetCfg::Reset` (src/network.cpp:904-915): back to the
default-new-netns state; note that `Autoconf` is not cleared. -/
def TNetCfg.Reset (cfg : TNetCfg) : TNetCfg :=
  { cfg with
    NewNetNs := true
    Inherited := false
    Steal := []
    MacVlan := []
    IpVlan := []
    Veth := []
    L3lan := []
    NetNsName := ""
    NetCtName := "" }

/-- Update the first list element named `name` (src/network.cpp:1088-1114,
one of the four MTU search loops), or `none` when nothing matches. -/
def setMtuFirst {α : Type} (getName : α → String) (setM : α → α)
    (name : String) : List α → Option (List α)
  | [] => none
  | l :: ls =>
    if getName l = name then some (setM l :: ls)
    else (setMtuFirst getName setM name ls).map (fun r => l :: r)

/-- The `MTU` line search (src/network.cpp:1088-1114): L3 list first, then
veth, then macvlan, then ipvlan; only the first match is updated. -/
def applyMtu (cfg : TNetCfg) (name : String) (mtu : Int) : Option TNetCfg :=
  match setMtuFirst (fun l => l.Name) (fun l => { l with Mtu := mtu })
      name cfg.L3lan with
  | some l3 => some { cfg with L3lan := l3 }
  | none =>
    match setMtuFirst (fun l => l.Name) (fun l => { l with Mtu := mtu })
        name cfg.Veth with
    | some v => some { cfg with Veth := v }
    | none =>
      match setMtuFirst (fun l => l.Name) (fun l => { l with Mtu := mtu })
          name cfg.MacVlan with
      | some m => some { cfg with MacVlan := m }
      | none =>
        match setMtuFirst (fun l => l.Name) (fun l => { l with Mtu := mtu })
            name cfg.IpVlan with
        | some i => some { cfg with IpVlan := i }
        | none => none

/-- Optional trailing mtu field: absent means `-1`, a malformed value is an
error (src/network.cpp:970-975 and the like). -/
def parseOptMtu (settings : List String) (pos : Nat) (errPre : String) :
    Except TError Int :=
  if pos < settings.length then
    match stringToIntM (settings.getD pos "") with
    | some v => .ok v
    | none => .error (mkErr .InvalidValue 0 (errPre ++ settings.getD pos ""))
  else .ok (-1)

/-- Result of parsing one specification line: continue with updated state,
return success for the whole specification immediately (the `MTU` match
path), or fail. -/
inductive LineOut where
  | cont (cfg : TNetCfg) (noneSeen : Bool) (idx : Nat)
  | earlyOk (cfg : TNetCfg)
  | fail (e : TError)
deriving DecidableEq

/-- One iteration of the `ParseNet` line loop (src/network.cpp:926-1134),
on the already-split token list `settings` (the original `line` is kept
for error messages). `netnsExists` stands for the `/var/run/netns`
existence check. -/
def parseNetTokens (netnsExists : String → Bool) (cfg : TNetCfg)
    (noneSeen : Bool) (idx : Nat) (settings : List String)
    (line : String) : LineOut :=
  if settings.length = 0 then
    .fail (mkErr .InvalidValue 0 ("Invalid net in: " ++ line))
  else
    let type0 := trimChars (settings.getD 0 "")
    let ty := if type0 = "host" ∧ settings.length = 1 then "inherited" else type0
    if ty = "none" then
      .cont cfg true idx
    else if ty = "inherited" then
      .cont { cfg with NewNetNs := false, Inherited := true } noneSeen idx
    else if ty = "steal" ∨ ty = "host" then
      if settings.length ≠ 2 then
        .fail (mkErr .InvalidValue 0 ("Invalid net in: " ++ line))
      else
        .cont { cfg with Steal := cfg.Steal ++ [trimChars (settings.getD 1 "")] }
          noneSeen idx
    else if ty = "container" then
      if settings.length ≠ 2 then
        .fail (mkErr .InvalidValue 0 ("Invalid net in: " ++ line))
      else
        .cont { cfg with
          NewNetNs := false
          NetCtName := trimChars (settings.getD 1 "") } noneSeen idx
    else if ty = "macvlan" then
      if settings.length < 3 then
        .fail (mkErr .InvalidValue 0 ("Invalid macvlan in: " ++ line))
      else
        let master := trimChars (settings.getD 1 "")
        let name := trimChars (settings.getD 2 "")
        let mvType := if 3 < settings.length then trimChars (settings.getD 3 "")
          else "bridge"
        if 3 < settings.length ∧ ValidMacVlanType mvType = false then
          .fail (mkErr .InvalidValue 0 ("Invalid macvlan type " ++ mvType))
        else
          match parseOptMtu settings 4 "Invalid macvlan mtu " with
          | .error e => .fail e
          | .ok mtu =>
            let hw := if 5 < settings.length then trimChars (settings.getD 5 "")
              else ""
            if 5 < settings.length ∧ ValidMacAddr hw = false then
              .fail (mkErr .InvalidValue 0 ("Invalid macvlan address " ++ hw))
            else
              .cont { cfg with MacVlan :=
                cfg.MacVlan ++ [⟨master, name, mvType, hw, mtu⟩] } noneSeen idx
    else if ty = "ipvlan" then
      if settings.length < 3 then
        .fail (mkErr .InvalidValue 0 ("Invalid ipvlan in: " ++ line))
      else
        let master := trimChars (settings.getD 1 "")
        let name := trimChars (settings.getD 2 "")
        let mode := if 3 < settings.length then trimChars (settings.getD 3 "")
          else "l2"
        if 3 < settings.length ∧ ValidIpVlanMode mode = false then
          .fail (mkErr .InvalidValue 0 ("Invalid ipvlan mode " ++ mode))
        else
          match parseOptMtu settings 4 "Invalid ipvlan mtu " with
          | .error e => .fail e
          | .ok mtu =>
            .cont { cfg with IpVlan :=
              cfg.IpVlan ++ [⟨master, name, mode, mtu⟩] } noneSeen idx
    else if ty = "veth" then
      if settings.length < 3 then
        .fail (mkErr .InvalidValue 0 ("Invalid veth in: " ++ line))
      else
        let name := trimChars (settings.getD 1 "")
        let bridge := trimChars (settings.getD 2 "")
        match parseOptMtu settings 3 "Invalid veth mtu " with
        | .error e => .fail e
        | .ok mtu =>
          let hw := if 4 < settings.length then trimChars (settings.getD 4 "")
            else ""
          if 4 < settings.length ∧ ValidMacAddr hw = false then
            .fail (mkErr .InvalidValue 0 ("Invalid veth address " ++ hw))
          else
            let peer := "portove-" ++ Nat.repr cfg.Id ++ "-" ++ Nat.repr idx
            .cont { cfg with Veth := cfg.Veth ++ [⟨name, bridge, hw, peer, mtu⟩] }
              noneSeen (idx + 1)
    else if ty = "L3" then
      let name := if 1 < settings.length then trimChars (settings.getD 1 "")
        else "eth0"
      let master := if 2 < settings.length then trimChars (settings.getD 2 "")
        else ""
      .cont { cfg with L3lan := cfg.L3lan ++ [⟨name, master, false, -1⟩] }
        noneSeen idx
    else if ty = "NAT" then
      let name := if 1 < settings.length then trimChars (settings.getD 1 "")
        else "eth0"
      .cont { cfg with L3lan := cfg.L3lan ++ [⟨name, "", true, -1⟩] } noneSeen idx
    else if ty = "MTU" then
      if settings.length ≠ 3 then
        .fail (mkErr .InvalidValue 0 ("Invalid MTU in: " ++ line))
      else
        match stringToIntM (settings.getD 2 "") with
        | none => .fail (mkErr .Unknown 0 ("Invalid integer " ++ settings.getD 2 ""))
        | some mtu =>
          match applyMtu cfg (settings.getD 1 "") mtu with
          | some cfg2 => .earlyOk cfg2
          | none =>
            .fail (mkErr .InvalidValue 0 ("Link not found: " ++ settings.getD 1 ""))
    else if ty = "autoconf" then
      if settings.length ≠ 2 then
        .fail (mkErr .InvalidValue 0 ("Invalid autoconf in: " ++ line))
      else
        .cont { cfg with Autoconf := cfg.Autoconf ++ [trimChars (settings.getD 1 "")] }
          noneSeen idx
    else if ty = "netns" then
      if settings.length ≠ 2 then
        .fail (mkErr .InvalidValue 0 ("Invalid netns in: " ++ line))
      else
        let name := trimChars (settings.getD 1 "")
        if netnsExists name = false then
          .fail (mkErr .InvalidValue 0 ("net namespace not found: " ++ name))
        else
          .cont { cfg with NewNetNs := false, NetNsName := name } noneSeen idx
    else
      .fail (mkErr .InvalidValue 0 "Configuration is not specified")

/-- One iteration of the `ParseNet` line loop on a raw line: split, then
process the tokens. -/
def parseNetLine (netnsExists : String → Bool) (cfg : TNetCfg)
    (noneSeen : Bool) (idx : Nat) (line : String) : LineOut :=
  parseNetTokens netnsExists cfg noneSeen idx (splitNet line) line

/-- The end-of-specification exclusivity validation
(src/network.cpp:1136-1141). -/
def parseValidate (cfg : TNetCfg) (noneSeen : Bool) : Except TError TNetCfg :=
  let single := (if noneSeen then 1 else 0) + (if cfg.Inherited then 1 else 0)
  let mixed := cfg.Steal.length + cfg.MacVlan.length + cfg.IpVlan.length +
    cfg.Veth.length + cfg.L3lan.length
  if single > 1 ∨ (single = 1 ∧ mixed ≠ 0) then
    .error (mkErr .InvalidValue 0 "none/host/inherited can't be mixed with other types")
  else .ok cfg

/-- The `ParseNet` line loop followed by the final validation. A `fail`
aborts, an `earlyOk` (the `MTU` match) returns success for the whole
specification without looking at the remaining lines and without running
the final validation. -/
def parseNetGo (nse : String → Bool) :
    TNetCfg → Bool → Nat → List String → Except TError TNetCfg
  | cfg, noneSeen, _, [] => parseValidate cfg noneSeen
  | cfg, noneSeen, idx, line :: rest =>
    match parseNetLine nse cfg noneSeen idx line with
    | .cont c n i => parseNetGo nse c n i rest
    | .earlyOk c => .ok c
    | .fail e => .error e

/-- `TNetCfg::ParseNet` (src/network.cpp:917-1143). -/
def TNetCfg.ParseNet (cfg : TNetCfg) (nse : String → Bool)
    (lines : List String) : Except TError TNetCfg :=
  if lines.length = 0 then
    .error (mkErr .InvalidValue 0 "Configuration is not specified")
  else parseNetGo nse cfg.Reset false 0 lines

/-- Total number of structural descriptors
(steal/macvlan/ipvlan/veth/L3) parsed so far — the `mixed` count of the
final validation (src/network.cpp:1137). -/
def structCount (cfg : TNetCfg) : Nat :=
  cfg.Steal.length + cfg.MacVlan.length + cfg.IpVlan.length +
    cfg.Veth.length + cfg.L3lan.length

set_option maxHeartbeats 2000000 in
theorem parseNetTokens_not_mtu (nse : String → Bool) (cfg : TNetCfg)
    (ns : Bool) (idx : Nat) (settings : List String) (line : String)
    (hne : trimChars (settings.getD 0 "") ≠ "MTU") :
    (∀ c, parseNetTokens nse cfg ns idx settings line ≠ .earlyOk c) ∧
    (∀ c n i, parseNetTokens nse cfg ns idx settings line = .cont c n i →
      (ns = true → n = true) ∧ (cfg.Inherited = true → c.Inherited = true) ∧
      structCount cfg ≤ structCount c) := by
  unfold parseNetTokens
  dsimp only
  by_cases h0 : settings.length = 0
  · rw [if_pos h0]
    exact ⟨fun c hc => LineOut.noConfusion hc, fun c n i hc => LineOut.noConfusion hc⟩
  rw [if_neg h0]
  by_cases hh : trimChars (settings.getD 0 "") = "host" ∧ settings.length = 1
  · rw [if_pos hh,
      if_neg (show ¬("inherited" : String) = "none" by decide), if_pos rfl]
    refine ⟨fun c hc => LineOut.noConfusion hc, fun c n i hc => ?_⟩
    injection hc with h1 h2 h3
    subst h1; subst h2
    exact ⟨fun hx => hx, fun _ => rfl, Nat.le_refl _⟩
  rw [if_neg hh]
  by_cases c1 : trimChars (settings.getD 0 "") = "none"
  · rw [if_pos c1]
    refine ⟨fun c hc => LineOut.noConfusion hc, fun c n i hc => ?_⟩
    injection hc with h1 h2 h3
    subst h1; subst h2
    exact ⟨fun _ => rfl, fun hx => hx, Nat.le_refl _⟩
  rw [if_neg c1]
  by_cases c2 : trimChars (settings.getD 0 "") = "inherited"
  · rw [if_pos c2]
    refine ⟨fun c hc => LineOut.noConfusion hc, fun c n i hc => ?_⟩
    injection hc with h1 h2 h3
    subst h1; subst h2
    exact ⟨fun hx => hx, fun _ => rfl, Nat.le_refl _⟩
  rw [if_neg c2]
  by_cases c3 : trimChars (settings.getD 0 "") = "steal" ∨
      trimChars (settings.getD 0 "") = "host"
  · rw [if_pos c3]
    by_cases c3a : settings.length ≠ 2
    · rw [if_pos c3a]
      exact ⟨fun c hc => LineOut.noConfusion hc, fun c n i hc => LineOut.noConfusion hc⟩
    · rw [if_neg c3a]
      refine ⟨fun c hc => LineOut.noConfusion hc, fun c n i hc => ?_⟩
      injection hc with h1 h2 h3
      subst h1; subst h2
      refine ⟨fun hx => hx, fun hx => hx, ?_⟩
      unfold structCount
      simp only [List.length_append, List.length_singleton]
      omega
  rw [if_neg c3]
  by_cases c4 : trimChars (settings.getD 0 "") = "container"
  · rw [if_pos c4]
    by_cases c4a : settings.length ≠ 2
    · rw [if_pos c4a]
      exact ⟨fun c hc => LineOut.noConfusion hc, fun c n i hc => LineOut.noConfusion hc⟩
    · rw [if_neg c4a]
      refine ⟨fun c hc => LineOut.noConfusion hc, fun c n i hc => ?_⟩
      injection hc with h1 h2 h3
      subst h1; subst h2
      exact ⟨fun hx => hx, fun hx => hx, Nat.le_refl _⟩
  rw [if_neg c4]
  by_cases c5 : trimChars (settings.getD 0 "") = "macvlan"
  · rw [if_pos c5]
    by_cases c5a : settings.length < 3
    · rw [if_pos c5a]
      exact ⟨fun c hc => LineOut.noConfusion hc, fun c n i hc => LineOut.noConfusion hc⟩
    rw [if_neg c5a]
    by_cases c5b : 3 < settings.length ∧
        ValidMacVlanType (if 3 < settings.length then
          trimChars (settings.getD 3 "") else "bridge") = false
    · rw [if_pos c5b]
      exact ⟨fun c hc => LineOut.noConfusion hc, fun c n i hc => LineOut.noConfusion hc⟩
    rw [if_neg c5b]
    cases hpm : parseOptMtu settings 4 "Invalid macvlan mtu " with
    | error e =>
      exact ⟨fun c hc => LineOut.noConfusion hc, fun c n i hc => LineOut.noConfusion hc⟩
    | ok mtu =>
      dsimp only
      by_cases c5c : 5 < settings.length ∧
          ValidMacAddr (if 5 < settings.length then
            trimChars (settings.getD 5 "") else "") = false
      · rw [if_pos c5c]
        exact ⟨fun c hc => LineOut.noConfusion hc, fun c n i hc => LineOut.noConfusion hc⟩
      · rw [if_neg c5c]
        refine ⟨fun c hc => LineOut.noConfusion hc, fun c n i hc => ?_⟩
        injection hc with h1 h2 h3
        subst h1; subst h2
        refine ⟨fun hx => hx, fun hx => hx, ?_⟩
        unfold structCount
        simp only [List.length_append, List.length_singleton]
        omega
  rw [if_neg c5]
  by_cases c6 : trimChars (settings.getD 0 "") = "ipvlan"
  · rw [if_pos c6]
    by_cases c6a : settings.length < 3
    · rw [if_pos c6a]
      exact ⟨fun c hc => LineOut.noConfusion hc, fun c n i hc => LineOut.noConfusion hc⟩
    rw [if_neg c6a]
    by_cases c6b : 3 < settings.length ∧
        ValidIpVlanMode (if 3 < settings.length then
          trimChars (settings.getD 3 "") else "l2") = false
    · rw [if_pos c6b]
      exact ⟨fun c hc => LineOut.noConfusion hc, fun c n i hc => LineOut.noConfusion hc⟩
    rw [if_neg c6b]
    cases hpm : parseOptMtu settings 4 "Invalid ipvlan mtu " with
    | error e =>
      exact ⟨fun c hc => LineOut.noConfusion hc, fun c n i hc => LineOut.noConfusion hc⟩
    | ok mtu =>
      refine ⟨fun c hc => LineOut.noConfusion hc, fun c n i hc => ?_⟩
      injection hc with h1 h2 h3
      subst h1; subst h2
      refine ⟨fun hx => hx, fun hx => hx, ?_⟩
      unfold structCount
      simp only [List.length_append, List.length_singleton]
      omega
  rw [if_neg c6]
  by_cases c7 : trimChars (settings.getD 0 "") = "veth"
  · rw [if_pos c7]
    by_cases c7a : settings.length < 3
    · rw [if_pos c7a]
      exact ⟨fun c hc => LineOut.noConfusion hc, fun c n i hc => LineOut.noConfusion hc⟩
    rw [if_neg c7a]
    cases hpm : parseOptMtu settings 3 "Invalid veth mtu " with
    | error e =>
      exact ⟨fun c hc => LineOut.noConfusion hc, fun c n i hc => LineOut.noConfusion hc⟩
    | ok mtu =>
      dsimp only
      by_cases c7b : 4 < settings.length ∧
          ValidMacAddr (if 4 < settings.length then
            trimChars (settings.getD 4 "") else "") = false
      · rw [if_pos c7b]
        exact ⟨fun c hc => LineOut.noConfusion hc, fun c n i hc => LineOut.noConfusion hc⟩
      · rw [if_neg c7b]
        refine ⟨fun c hc => LineOut.noConfusion hc, fun c n i hc => ?_⟩
        injection hc with h1 h2 h3
        subst h1; subst h2
        refine ⟨fun hx => hx, fun hx => hx, ?_⟩
        unfold structCount
        simp only [List.length_append, List.length_singleton]
        omega
  rw [if_neg c7]
  by_cases c8 : trimChars (settings.getD 0 "") = "L3"
  · rw [if_pos c8]
    refine ⟨fun c hc => LineOut.noConfusion hc, fun c n i hc => ?_⟩
    injection hc with h1 h2 h3
    subst h1; subst h2
    refine ⟨fun hx => hx, fun hx => hx, ?_⟩
    unfold structCount
    simp only [List.length_append, List.length_singleton]
    omega
  rw [if_neg c8]
  by_cases c9 : trimChars (settings.getD 0 "") = "NAT"
  · rw [if_pos c9]
    refine ⟨fun c hc => LineOut.noConfusion hc, fun c n i hc => ?_⟩
    injection hc with h1 h2 h3
    subst h1; subst h2
    refine ⟨fun hx => hx, fun hx => hx, ?_⟩
    unfold structCount
    simp only [List.length_append, List.length_singleton]
    omega
  rw [if_neg c9]
  by_cases c10 : trimChars (settings.getD 0 "") = "MTU"
  · exact absurd c10 hne
  rw [if_neg c10]
  by_cases c11 : trimChars (settings.getD 0 "") = "autoconf"
  · rw [if_pos c11]
    by_cases c11a : settings.length ≠ 2
    · rw [if_pos c11a]
      exact ⟨fun c hc => LineOut.noConfusion hc, fun c n i hc => LineOut.noConfusion hc⟩
    · rw [if_neg c11a]
      refine ⟨fun c hc => LineOut.noConfusion hc, fun c n i hc => ?_⟩
      injection hc with h1 h2 h3
      subst h1; subst h2
      exact ⟨fun hx => hx, fun hx => hx, Nat.le_refl _⟩
  rw [if_neg c11]
  by_cases c12 : trimChars (settings.getD 0 "") = "netns"
  · rw [if_pos c12]
    by_cases c12a : settings.length ≠ 2
    · rw [if_pos c12a]
      exact ⟨fun c hc => LineOut.noConfusion hc, fun c n i hc => LineOut.noConfusion hc⟩
    rw [if_neg c12a]
    by_cases c12b : nse (trimChars (settings.getD 1 "")) = false
    · rw [if_pos c12b]
      exact ⟨fun c hc => LineOut.noConfusion hc, fun c n i hc => LineOut.noConfusion hc⟩
    · rw [if_neg c12b]
      refine ⟨fun c hc => LineOut.noConfusion hc, fun c n i hc => ?_⟩
      injection hc with h1 h2 h3
      subst h1; subst h2
      exact ⟨fun hx => hx, fun hx => hx, Nat.le_refl _⟩
  rw [if_neg c12]
  exact ⟨fun c hc => LineOut.noConfusion hc, fun c n i hc => LineOut.noConfusion hc⟩

theorem parseNetTokens_none_line (nse : String → Bool) (cfg : TNetCfg)
    (ns : Bool) (idx : Nat) (settings : List String) (line : String)
    (h : trimChars (settings.getD 0 "") = "none") :
    parseNetTokens nse cfg ns idx settings line = .cont cfg true idx := by
  unfold parseNetTokens
  dsimp only
  have h0 : ¬settings.length = 0 := by
    intro h0
    rw [List.length_eq_zero.mp h0] at h
    exact absurd h (by decide)
  rw [if_neg h0]
  rw [if_neg (show ¬(trimChars (settings.getD 0 "") = "host" ∧
      settings.length = 1) from fun hx => by
    rw [h] at hx
    exact absurd hx.1 (by decide))]
  rw [if_pos h]

theorem parseNetTokens_inherited_line (nse : String → Bool) (cfg : TNetCfg)
    (ns : Bool) (idx : Nat) (settings : List String) (line : String)
    (h : trimChars (settings.getD 0 "") = "inherited") :
    parseNetTokens nse cfg ns idx settings line =
      .cont { cfg with NewNetNs := false, Inherited := true } ns idx := by
  unfold parseNetTokens
  dsimp only
  have h0 : ¬settings.length = 0 := by
    intro h0
    rw [List.length_eq_zero.mp h0] at h
    exact absurd h (by decide)
  rw [if_neg h0]
  rw [if_neg (show ¬(trimChars (settings.getD 0 "") = "host" ∧
      settings.length = 1) from fun hx => by
    rw [h] at hx
    exact absurd hx.1 (by decide))]
  rw [if_neg (show ¬(trimChars (settings.getD 0 "") = "none") from fun hx => by
    rw [h] at hx
    exact absurd hx (by decide))]
  rw [if_pos h]

set_option maxHeartbeats 2000000 in
theorem parseNetTokens_structural (nse : String → Bool) (cfg : TNetCfg)
    (ns : Bool) (idx : Nat) (settings : List String) (line : String)
    (h : trimChars (settings.getD 0 "") = "steal" ∨
         trimChars (settings.getD 0 "") = "macvlan" ∨
         trimChars (settings.getD 0 "") = "ipvlan" ∨
         trimChars (settings.getD 0 "") = "veth" ∨
         trimChars (settings.getD 0 "") = "L3" ∨
         trimChars (settings.getD 0 "") = "NAT") :
    ∀ c n i, parseNetTokens nse cfg ns idx settings line = .cont c n i →
      structCount cfg < structCount c := by
  intro c n i hc
  unfold parseNetTokens at hc
  dsimp only at hc
  have h0 : ¬settings.length = 0 := by
    intro h0
    rw [List.length_eq_zero.mp h0] at h
    rcases h with h | h | h | h | h | h <;> exact absurd h (by decide)
  rw [if_neg h0] at hc
  rcases h with h | h | h | h | h | h <;> rw [h] at hc <;>
    simp only [String.reduceEq, false_and, and_false, if_false, false_or,
      or_false, true_or, or_true, true_and, and_true, if_true, reduceIte] at hc
  · -- steal
    by_cases hb : settings.length ≠ 2
    · rw [if_pos hb] at hc
      exact LineOut.noConfusion hc
    · rw [if_neg hb] at hc
      injection hc with h1 h2 h3
      subst h1
      unfold structCount
      simp only [List.length_append, List.length_singleton]
      omega
  · -- macvlan
    by_cases ha : settings.length < 3
    · rw [if_pos ha] at hc
      exact LineOut.noConfusion hc
    rw [if_neg ha] at hc
    by_cases hb : 3 < settings.length ∧
        ValidMacVlanType (if 3 < settings.length then
          trimChars (settings.getD 3 "") else "bridge") = false
    · rw [if_pos hb] at hc
      exact LineOut.noConfusion hc
    rw [if_neg hb] at hc
    cases hpm : parseOptMtu settings 4 "Invalid macvlan mtu " with
    | error e =>
      rw [hpm] at hc
      exact LineOut.noConfusion hc
    | ok mtu =>
      rw [hpm] at hc
      dsimp only at hc
      by_cases hd : 5 < settings.length ∧
          ValidMacAddr (if 5 < settings.length then
            trimChars (settings.getD 5 "") else "") = false
      · rw [if_pos hd] at hc
        exact LineOut.noConfusion hc
      · rw [if_neg hd] at hc
        injection hc with h1 h2 h3
        subst h1
        unfold structCount
        simp only [List.length_append, List.length_singleton]
        omega
  · -- ipvlan
    by_cases ha : settings.length < 3
    · rw [if_pos ha] at hc
      exact LineOut.noConfusion hc
    rw [if_neg ha] at hc
    by_cases hb : 3 < settings.length ∧
        ValidIpVlanMode (if 3 < settings.length then
          trimChars (settings.getD 3 "") else "l2") = false
    · rw [if_pos hb] at hc
      exact LineOut.noConfusion hc
    rw [if_neg hb] at hc
    cases hpm : parseOptMtu settings 4 "Invalid ipvlan mtu " with
    | error e =>
      rw [hpm] at hc
      exact LineOut.noConfusion hc
    | ok mtu =>
      rw [hpm] at hc
      injection hc with h1 h2 h3
      subst h1
      unfold structCount
      simp only [List.length_append, List.length_singleton]
      omega
  · -- veth
    by_cases ha : settings.length < 3
    · rw [if_pos ha] at hc
      exact LineOut.noConfusion hc
    rw [if_neg ha] at hc
    cases hpm : parseOptMtu settings 3 "Invalid veth mtu " with
    | error e =>
      rw [hpm] at hc
      exact LineOut.noConfusion hc
    | ok mtu =>
      rw [hpm] at hc
      dsimp only at hc
      by_cases hd : 4 < settings.length ∧
          ValidMacAddr (if 4 < settings.length then
            trimChars (settings.getD 4 "") else "") = false
      · rw [if_pos hd] at hc
        exact LineOut.noConfusion hc
      · rw [if_neg hd] at hc
        injection hc with h1 h2 h3
        subst h1
        unfold structCount
        simp only [List.length_append, List.length_singleton]
        omega
  · -- L3
    injection hc with h1 h2 h3
    subst h1
    unfold structCount
    simp only [List.length_append, List.length_singleton]
    omega
  · -- NAT
    injection hc with h1 h2 h3
    subst h1
    unfold structCount
    simp only [List.length_append, List.length_singleton]
    omega

theorem parseValidate_mixed (cfg : TNetCfg) (ns : Bool)
    (hs : ns = true ∨ cfg.Inherited = true) (hm : 1 ≤ structCount cfg) :
    parseValidate cfg ns =
      .error (mkErr .InvalidValue 0
        "none/host/inherited can't be mixed with other types") := by
  unfold parseValidate
  dsimp only
  rw [if_pos]
  unfold structCount at hm
  rcases hs with hs | hs
  · rw [hs]
    cases h2 : cfg.Inherited
    · refine Or.inr ⟨by simp, ?_⟩
      omega
    · exact Or.inl (by simp)
  · rw [hs]
    cases h3 : ns
    · refine Or.inr ⟨by simp, ?_⟩
      omega
    · exact Or.inl (by simp)

theorem setMtuFirst_none {α : Type} (getName : α → String) (setM : α → α)
    (name : String) : ∀ l : List α, (∀ x ∈ l, getName x ≠ name) →
      setMtuFirst getName setM name l = none := by
  intro l
  induction l with
  | nil => intro _; rfl
  | cons a t ih =>
    intro h
    rw [setMtuFirst, if_neg (h a (List.mem_cons_self _ _))]
    rw [ih (fun x hx => h x (List.mem_cons_of_mem _ hx))]
    rfl

theorem setMtuFirst_first {α : Type} (getName : α → String) (setM : α → α)
    (name : String) : ∀ (l : List α) (i : Nat) (hi : i < l.length),
      getName (l.get ⟨i, hi⟩) = name →
      (∀ j (hj : j < i), getName (l.get ⟨j, Nat.lt_trans hj hi⟩) ≠ name) →
      setMtuFirst getName setM name l = some (l.set i (setM (l.get ⟨i, hi⟩))) := by
  intro l
  induction l with
  | nil => intro i hi; simp at hi
  | cons a t ih =>
    intro i hi hp hfirst
    cases i with
    | zero =>
      simp only [List.get] at hp ⊢
      rw [setMtuFirst, if_pos hp]
      rfl
    | succ n =>
      have ha : getName a ≠ name := hfirst 0 (Nat.succ_pos n)
      simp only [List.get] at hp ⊢
      rw [setMtuFirst, if_neg ha]
      rw [ih n (Nat.lt_of_succ_lt_succ hi) hp
        (fun j hj => hfirst (j + 1) (Nat.succ_lt_succ hj))]
      rfl

theorem parseNetLine_earlyOk_head (nse : String → Bool) (cfg : TNetCfg)
    (ns : Bool) (idx : Nat) (line : String) (c : TNetCfg)
    (h : parseNetLine nse cfg ns idx line = .earlyOk c) :
    trimChars ((splitNet line).getD 0 "") = "MTU" := by
  by_contra hne
  exact (parseNetTokens_not_mtu nse cfg ns idx (splitNet line) line hne).1 c h

theorem parseNetGo_mixed_error (nse : String → Bool) :
    ∀ (lines : List String) (cfg : TNetCfg) (ns : Bool) (idx : Nat),
      (∀ l ∈ lines, trimChars ((splitNet l).getD 0 "") ≠ "MTU") →
      ((ns = true ∨ cfg.Inherited = true) ∨
        ∃ l ∈ lines, trimChars ((splitNet l).getD 0 "") = "none" ∨
          trimChars ((splitNet l).getD 0 "") = "inherited") →
      (1 ≤ structCount cfg ∨
        ∃ l ∈ lines, trimChars ((splitNet l).getD 0 "") = "steal" ∨
          trimChars ((splitNet l).getD 0 "") = "macvlan" ∨
          trimChars ((splitNet l).getD 0 "") = "ipvlan" ∨
          trimChars ((splitNet l).getD 0 "") = "veth" ∨
          trimChars ((splitNet l).getD 0 "") = "L3" ∨
          trimChars ((splitNet l).getD 0 "") = "NAT") →
      ∃ e, parseNetGo nse cfg ns idx lines = .error e := by
  intro lines
  induction lines with
  | nil =>
    intro cfg ns idx hmtu hsingle hmixed
    have hs : ns = true ∨ cfg.Inherited = true := by
      rcases hsingle with h | ⟨w, hw, _⟩
      · exact h
      · simp at hw
    have hm : 1 ≤ structCount cfg := by
      rcases hmixed with h | ⟨w, hw, _⟩
      · exact h
      · simp at hw
    exact ⟨_, parseValidate_mixed cfg ns hs hm⟩
  | cons l rest ih =>
    intro cfg ns idx hmtu hsingle hmixed
    have hlne : trimChars ((splitNet l).getD 0 "") ≠ "MTU" :=
      hmtu l (List.mem_cons_self _ _)
    cases hstep : parseNetLine nse cfg ns idx l with
    | fail e =>
      refine ⟨e, ?_⟩
      rw [parseNetGo, hstep]
    | earlyOk c =>
      exact absurd hstep ((parseNetTokens_not_mtu nse cfg ns idx
        (splitNet l) l hlne).1 c)
    | cont c n i =>
      obtain ⟨hns, hinh, hle⟩ := (parseNetTokens_not_mtu nse cfg ns idx
        (splitNet l) l hlne).2 c n i hstep
      obtain ⟨e, he⟩ := ih c n i
        (fun x hx => hmtu x (List.mem_cons_of_mem _ hx))
        (by
          rcases hsingle with hstate | ⟨w, hw, hwp⟩
          · rcases hstate with hstate | hstate
            · exact Or.inl (Or.inl (hns hstate))
            · exact Or.inl (Or.inr (hinh hstate))
          · rcases List.mem_cons.mp hw with hwl | hwr
            · subst hwl
              rcases hwp with hwp | hwp
              · have := (parseNetTokens_none_line nse cfg ns idx
                  (splitNet w) w hwp).symm.trans hstep
                injection this with h1 h2 h3
                exact Or.inl (Or.inl h2.symm)
              · have := (parseNetTokens_inherited_line nse cfg ns idx
                  (splitNet w) w hwp).symm.trans hstep
                injection this with h1 h2 h3
                exact Or.inl (Or.inr (by rw [← h1]))
            · exact Or.inr ⟨w, hwr, hwp⟩)
        (by
          rcases hmixed with hcount | ⟨w, hw, hwp⟩
          · exact Or.inl (Nat.le_trans hcount hle)
          · rcases List.mem_cons.mp hw with hwl | hwr
            · subst hwl
              have hlt := parseNetTokens_structural nse cfg ns idx
                (splitNet w) w hwp c n i hstep
              exact Or.inl (by omega)
            · exact Or.inr ⟨w, hwr, hwp⟩)
      refine ⟨e, ?_⟩
      rw [parseNetGo, hstep]
      exact he

theorem parseValidate_two (cfg : TNetCfg) (ns : Bool)
    (hn : ns = true) (hi : cfg.Inherited = true) :
    parseValidate cfg ns =
      .error (mkErr .InvalidValue 0
        "none/host/inherited can't be mixed with other types") := by
  unfold parseValidate
  dsimp only
  rw [if_pos]
  rw [hn, hi]
  exact Or.inl (by simp)

theorem parseNetGo_none_inherited_error (nse : String → Bool) :
    ∀ (lines : List String) (cfg : TNetCfg) (ns : Bool) (idx : Nat),
      (∀ l ∈ lines, trimChars ((splitNet l).getD 0 "") ≠ "MTU") →
      (ns = true ∨ ∃ l ∈ lines, trimChars ((splitNet l).getD 0 "") = "none") →
      (cfg.Inherited = true ∨
        ∃ l ∈ lines, trimChars ((splitNet l).getD 0 "") = "inherited") →
      ∃ e, parseNetGo nse cfg ns idx lines = .error e := by
  intro lines
  induction lines with
  | nil =>
    intro cfg ns idx hmtu hn hi
    have hn' : ns = true := by
      rcases hn with h | ⟨w, hw, _⟩
      · exact h
      · simp at hw
    have hi' : cfg.Inherited = true := by
      rcases hi with h | ⟨w, hw, _⟩
      · exact h
      · simp at hw
    exact ⟨_, parseValidate_two cfg ns hn' hi'⟩
  | cons l rest ih =>
    intro cfg ns idx hmtu hn hi
    have hlne : trimChars ((splitNet l).getD 0 "") ≠ "MTU" :=
      hmtu l (List.mem_cons_self _ _)
    cases hstep : parseNetLine nse cfg ns idx l with
    | fail e =>
      refine ⟨e, ?_⟩
      rw [parseNetGo, hstep]
    | earlyOk c =>
      exact absurd hstep ((parseNetTokens_not_mtu nse cfg ns idx
        (splitNet l) l hlne).1 c)
    | cont c n i =>
      obtain ⟨hns, hinh, _⟩ := (parseNetTokens_not_mtu nse cfg ns idx
        (splitNet l) l hlne).2 c n i hstep
      obtain ⟨e, he⟩ := ih c n i
        (fun x hx => hmtu x (List.mem_cons_of_mem _ hx))
        (by
          rcases hn with hstate | ⟨w, hw, hwp⟩
          · exact Or.inl (hns hstate)
          · rcases List.mem_cons.mp hw with hwl | hwr
            · subst hwl
              have := (parseNetTokens_none_line nse cfg ns idx
                (splitNet w) w hwp).symm.trans hstep
              injection this with h1 h2 h3
              exact Or.inl h2.symm
            · exact Or.inr ⟨w, hwr, hwp⟩)
        (by
          rcases hi with hstate | ⟨w, hw, hwp⟩
          · exact Or.inl (hinh hstate)
          · rcases List.mem_cons.mp hw with hwl | hwr
            · subst hwl
              have := (parseNetTokens_inherited_line nse cfg ns idx
                (splitNet w) w hwp).symm.trans hstep
              injection this with h1 h2 h3
              exact Or.inl (by rw [← h1])
            · exact Or.inr ⟨w, hwr, hwp⟩)
      refine ⟨e, ?_⟩
      rw [parseNetGo, hstep]
      exact he

/-- A default-initialized `TNetCfg` used by the parser theorems. -/
def witCfg : TNetCfg := ⟨true, false, [], [], [], [], [], [], "", "", 0⟩

theorem trimChars_MTU_lit : trimChars "MTU" = "MTU" := rfl

theorem trimChars_macvlan_lit : trimChars "macvlan" = "macvlan" := rfl

-- ---------------------------------------------------------------------
-- C4: MTU line first-match search and early return
-- ---------------------------------------------------------------------

/-- C4: an `MTU` line searches descriptors by interface name in
first-match order — L3 list, then veth, then macvlan, then ipvlan —
updates only the matched descriptor's MTU, and on a match `ParseNet`
returns success for the entire multi-line specification immediately,
without parsing any subsequent lines; an `MTU` line matching no descriptor
fails, and a failing line makes `ParseNet` fail. The first conjunct is the
spec's concrete example, with arbitrary unparsed trailing lines. -/
theorem parsenet_mtu_first_match_early_return :
    (∀ (nse : String → Bool) (rest : List String),
      TNetCfg.ParseNet witCfg nse
        (["L3 eth0", "veth eth1 br0", "MTU eth1 9000"] ++ rest) =
        .ok { witCfg with
          L3lan := [⟨"eth0", "", false, -1⟩]
          Veth := [⟨"eth1", "br0", "", "portove-0-0", 9000⟩] }) ∧
    (∀ (cfg : TNetCfg) (name : String) (v : Int) (i : Nat)
        (hi : i < cfg.L3lan.length),
      (cfg.L3lan.get ⟨i, hi⟩).Name = name →
      (∀ j (hj : j < i), (cfg.L3lan.get ⟨j, Nat.lt_trans hj hi⟩).Name ≠ name) →
      applyMtu cfg name v = some { cfg with
        L3lan := cfg.L3lan.set i { cfg.L3lan.get ⟨i, hi⟩ with Mtu := v } }) ∧
    (∀ (cfg : TNetCfg) (name : String) (v : Int) (i : Nat)
        (hi : i < cfg.Veth.length),
      (∀ x ∈ cfg.L3lan, x.Name ≠ name) →
      (cfg.Veth.get ⟨i, hi⟩).Name = name →
      (∀ j (hj : j < i), (cfg.Veth.get ⟨j, Nat.lt_trans hj hi⟩).Name ≠ name) →
      applyMtu cfg name v = some { cfg with
        Veth := cfg.Veth.set i { cfg.Veth.get ⟨i, hi⟩ with Mtu := v } }) ∧
    (∀ (cfg : TNetCfg) (name : String) (v : Int) (i : Nat)
        (hi : i < cfg.MacVlan.length),
      (∀ x ∈ cfg.L3lan, x.Name ≠ name) →
      (∀ x ∈ cfg.Veth, x.Name ≠ name) →
      (cfg.MacVlan.get ⟨i, hi⟩).Name = name →
      (∀ j (hj : j < i), (cfg.MacVlan.get ⟨j, Nat.lt_trans hj hi⟩).Name ≠ name) →
      applyMtu cfg name v = some { cfg with
        MacVlan := cfg.MacVlan.set i { cfg.MacVlan.get ⟨i, hi⟩ with Mtu := v } }) ∧
    (∀ (cfg : TNetCfg) (name : String) (v : Int) (i : Nat)
        (hi : i < cfg.IpVlan.length),
      (∀ x ∈ cfg.L3lan, x.Name ≠ name) →
      (∀ x ∈ cfg.Veth, x.Name ≠ name) →
      (∀ x ∈ cfg.MacVlan, x.Name ≠ name) →
      (cfg.IpVlan.get ⟨i, hi⟩).Name = name →
      (∀ j (hj : j < i), (cfg.IpVlan.get ⟨j, Nat.lt_trans hj hi⟩).Name ≠ name) →
      applyMtu cfg name v = some { cfg with
        IpVlan := cfg.IpVlan.set i { cfg.IpVlan.get ⟨i, hi⟩ with Mtu := v } }) ∧
    (∀ (cfg : TNetCfg) (name : String) (v : Int),
      (∀ x ∈ cfg.L3lan, x.Name ≠ name) →
      (∀ x ∈ cfg.Veth, x.Name ≠ name) →
      (∀ x ∈ cfg.MacVlan, x.Name ≠ name) →
      (∀ x ∈ cfg.IpVlan, x.Name ≠ name) →
      applyMtu cfg name v = none) ∧
    (∀ (nse : String → Bool) (cfg c : TNetCfg) (ns : Bool) (idx : Nat)
        (nm vs line : String) (v : Int),
      stringToIntM vs = some v → applyMtu cfg nm v = some c →
      parseNetTokens nse cfg ns idx ["MTU", nm, vs] line = .earlyOk c) ∧
    (∀ (nse : String → Bool) (cfg : TNetCfg) (ns : Bool) (idx : Nat)
        (nm vs line : String) (v : Int),
      stringToIntM vs = some v → applyMtu cfg nm v = none →
      parseNetTokens nse cfg ns idx ["MTU", nm, vs] line =
        .fail (mkErr .InvalidValue 0 ("Link not found: " ++ nm))) ∧
    (∀ (nse : String → Bool) (cfg c : TNetCfg) (ns : Bool) (idx : Nat)
        (line : String) (rest : List String),
      parseNetLine nse cfg ns idx line = .earlyOk c →
      parseNetGo nse cfg ns idx (line :: rest) = .ok c) ∧
    (∀ (nse : String → Bool) (cfg : TNetCfg) (ns : Bool) (idx : Nat)
        (line : String) (rest : List String) (e : TError),
      parseNetLine nse cfg ns idx line = .fail e →
      parseNetGo nse cfg ns idx (line :: rest) = .error e) := by
  refine ⟨fun nse rest => rfl, ?_, ?_, ?_, ?_, ?_, ?_, ?_, ?_, ?_⟩
  · intro cfg name v i hi hp hfirst
    unfold applyMtu
    rw [setMtuFirst_first (fun l => l.Name) (fun l => { l with Mtu := v })
      name cfg.L3lan i hi hp hfirst]
  · intro cfg name v i hi hL3 hp hfirst
    unfold applyMtu
    rw [setMtuFirst_none (fun l => l.Name) (fun l => { l with Mtu := v })
      name cfg.L3lan hL3]
    rw [setMtuFirst_first (fun l => l.Name) (fun l => { l with Mtu := v })
      name cfg.Veth i hi hp hfirst]
  · intro cfg name v i hi hL3 hVeth hp hfirst
    unfold applyMtu
    rw [setMtuFirst_none (fun l => l.Name) (fun l => { l with Mtu := v })
      name cfg.L3lan hL3]
    rw [setMtuFirst_none (fun l => l.Name) (fun l => { l with Mtu := v })
      name cfg.Veth hVeth]
    rw [setMtuFirst_first (fun l => l.Name) (fun l => { l with Mtu := v })
      name cfg.MacVlan i hi hp hfirst]
  · intro cfg name v i hi hL3 hVeth hMac hp hfirst
    unfold applyMtu
    rw [setMtuFirst_none (fun l => l.Name) (fun l => { l with Mtu := v })
      name cfg.L3lan hL3]
    rw [setMtuFirst_none (fun l => l.Name) (fun l => { l with Mtu := v })
      name cfg.Veth hVeth]
    rw [setMtuFirst_none (fun l => l.Name) (fun l => { l with Mtu := v })
      name cfg.MacVlan hMac]
    rw [setMtuFirst_first (fun l => l.Name) (fun l => { l with Mtu := v })
      name cfg.IpVlan i hi hp hfirst]
  · intro cfg name v hL3 hVeth hMac hIp
    unfold applyMtu
    rw [setMtuFirst_none (fun l => l.Name) (fun l => { l with Mtu := v })
      name cfg.L3lan hL3]
    rw [setMtuFirst_none (fun l => l.Name) (fun l => { l with Mtu := v })
      name cfg.Veth hVeth]
    rw [setMtuFirst_none (fun l => l.Name) (fun l => { l with Mtu := v })
      name cfg.MacVlan hMac]
    rw [setMtuFirst_none (fun l => l.Name) (fun l => { l with Mtu := v })
      name cfg.IpVlan hIp]
  · intro nse cfg c ns idx nm vs line v hv happ
    simp [parseNetTokens, hv, happ, trimChars_MTU_lit]
  · intro nse cfg ns idx nm vs line v hv happ
    simp [parseNetTokens, hv, happ, trimChars_MTU_lit]
  · intro nse cfg c ns idx line rest hstep
    rw [parseNetGo, hstep]
  · intro nse cfg ns idx line rest e hstep
    rw [parseNetGo, hstep]

/-- Witness for C4: instantiates the concrete example with a trailing
garbage line (not parsed), the veth-hit case of the search on a two-list
state, and the no-match failure. -/
theorem parsenet_mtu_first_match_early_return_witness :
    TNetCfg.ParseNet witCfg (fun _ => false)
      ["L3 eth0", "veth eth1 br0", "MTU eth1 9000", "garbage"] =
      .ok { witCfg with
        L3lan := [⟨"eth0", "", false, -1⟩]
        Veth := [⟨"eth1", "br0", "", "portove-0-0", 9000⟩] } ∧
    applyMtu { witCfg with
        L3lan := [⟨"eth0", "", false, -1⟩]
        Veth := [⟨"eth1", "br0", "", "portove-0-0", -1⟩] } "eth1" 9000 =
      some { witCfg with
        L3lan := [⟨"eth0", "", false, -1⟩]
        Veth := [⟨"eth1", "br0", "", "portove-0-0", 9000⟩] } ∧
    applyMtu witCfg "eth9" 1500 = none := by
  refine ⟨?_, ?_, ?_⟩
  · have h := parsenet_mtu_first_match_early_return.1 (fun _ => false) ["garbage"]
    exact h
  · have h := parsenet_mtu_first_match_early_return.2.2.1
      { witCfg with
        L3lan := [⟨"eth0", "", false, -1⟩]
        Veth := [⟨"eth1", "br0", "", "portove-0-0", -1⟩] } "eth1" 9000 0
      (by decide) (by intro x hx; simp at hx; rw [hx]; decide)
      (by decide) (fun j hj => absurd hj (Nat.not_lt_zero j))
    exact h
  · have h := parsenet_mtu_first_match_early_return.2.2.2.2.2.1 witCfg "eth9" 1500
      (by intro x hx; simp [witCfg] at hx) (by intro x hx; simp [witCfg] at hx)
      (by intro x hx; simp [witCfg] at hx) (by intro x hx; simp [witCfg] at hx)
    exact h

-- ---------------------------------------------------------------------
-- C5: grammar and exclusivity rejections
-- ---------------------------------------------------------------------

/-- Counterexample for C5 as stated: the specification
`["none", "veth eth1 br0", "MTU eth1 9000"]` combines `none` with a
structural `veth` descriptor, yet `ParseNet` accepts it: the matching
`MTU` line returns success for the whole specification before the
end-of-specification exclusivity validation ever runs
(src/network.cpp:1095-1099 returns from inside the line loop, skipping
lines 1136-1141). -/
theorem parsenet_none_structural_accepted_counterexample :
    TNetCfg.ParseNet witCfg (fun _ => false)
      ["none", "veth eth1 br0", "MTU eth1 9000"] =
      .ok { witCfg with Veth := [⟨"eth1", "br0", "", "portove-0-0", 9000⟩] } := by
  rfl

/-- C5 (amended): `ParseNet` rejects a veth line with fewer than three
fields and a macvlan line whose type token is invalid; and — provided no
`MTU` line triggers the early-success return — it rejects any
specification in which `none` or `inherited` (by head token) is combined
with a structural descriptor line (steal/macvlan/ipvlan/veth/L3/NAT head
token), and any specification in which both `none` and `inherited`
appear. The last conjunct lists the spec's concrete rejection examples. -/
theorem parsenet_rejections :
    (∀ (nse : String → Bool) (cfg : TNetCfg) (ns : Bool) (idx : Nat)
        (x line : String),
      parseNetTokens nse cfg ns idx ["veth", x] line =
        .fail (mkErr .InvalidValue 0 ("Invalid veth in: " ++ line))) ∧
    (∀ (nse : String → Bool) (cfg : TNetCfg) (ns : Bool) (idx : Nat)
        (m n t line : String),
      ValidMacVlanType (trimChars t) = false →
      parseNetTokens nse cfg ns idx ["macvlan", m, n, t] line =
        .fail (mkErr .InvalidValue 0 ("Invalid macvlan type " ++ trimChars t))) ∧
    (∀ (nse : String → Bool) (cfg : TNetCfg) (lines : List String),
      lines ≠ [] →
      (∀ l ∈ lines, trimChars ((splitNet l).getD 0 "") ≠ "MTU") →
      (∃ l ∈ lines, trimChars ((splitNet l).getD 0 "") = "none" ∨
        trimChars ((splitNet l).getD 0 "") = "inherited") →
      (∃ l ∈ lines, trimChars ((splitNet l).getD 0 "") = "steal" ∨
        trimChars ((splitNet l).getD 0 "") = "macvlan" ∨
        trimChars ((splitNet l).getD 0 "") = "ipvlan" ∨
        trimChars ((splitNet l).getD 0 "") = "veth" ∨
        trimChars ((splitNet l).getD 0 "") = "L3" ∨
        trimChars ((splitNet l).getD 0 "") = "NAT") →
      ∃ e, TNetCfg.ParseNet cfg nse lines = .error e) ∧
    (∀ (nse : String → Bool) (cfg : TNetCfg) (lines : List String),
      lines ≠ [] →
      (∀ l ∈ lines, trimChars ((splitNet l).getD 0 "") ≠ "MTU") →
      (∃ l ∈ lines, trimChars ((splitNet l).getD 0 "") = "none") →
      (∃ l ∈ lines, trimChars ((splitNet l).getD 0 "") = "inherited") →
      ∃ e, TNetCfg.ParseNet cfg nse lines = .error e) ∧
    (∀ (nse : String → Bool) (cfg : TNetCfg),
      TNetCfg.ParseNet cfg nse ["none", "veth eth1 br0"] =
        .error (mkErr .InvalidValue 0
          "none/host/inherited can't be mixed with other types") ∧
      TNetCfg.ParseNet cfg nse ["inherited", "veth eth1 br0"] =
        .error (mkErr .InvalidValue 0
          "none/host/inherited can't be mixed with other types") ∧
      TNetCfg.ParseNet cfg nse ["none", "steal eth0"] =
        .error (mkErr .InvalidValue 0
          "none/host/inherited can't be mixed with other types") ∧
      TNetCfg.ParseNet cfg nse ["none", "macvlan eth0 m0"] =
        .error (mkErr .InvalidValue 0
          "none/host/inherited can't be mixed with other types") ∧
      TNetCfg.ParseNet cfg nse ["none", "ipvlan eth0 i0"] =
        .error (mkErr .InvalidValue 0
          "none/host/inherited can't be mixed with other types") ∧
      TNetCfg.ParseNet cfg nse ["none", "L3 v0"] =
        .error (mkErr .InvalidValue 0
          "none/host/inherited can't be mixed with other types") ∧
      TNetCfg.ParseNet cfg nse ["none", "inherited"] =
        .error (mkErr .InvalidValue 0
          "none/host/inherited can't be mixed with other types") ∧
      TNetCfg.ParseNet cfg nse ["inherited", "none"] =
        .error (mkErr .InvalidValue 0
          "none/host/inherited can't be mixed with other types")) := by
  refine ⟨fun nse cfg ns idx x line => rfl, ?_, ?_, ?_, ?_⟩
  · intro nse cfg ns idx m n t line ht
    simp [parseNetTokens, ht, trimChars_macvlan_lit]
  · intro nse cfg lines hne hmtu hnone hstruct
    unfold TNetCfg.ParseNet
    rw [if_neg (fun h0 => hne (List.length_eq_zero.mp h0))]
    exact parseNetGo_mixed_error nse lines cfg.Reset false 0 hmtu
      (Or.inr hnone) (Or.inr hstruct)
  · intro nse cfg lines hne hmtu hnone hinh
    unfold TNetCfg.ParseNet
    rw [if_neg (fun h0 => hne (List.length_eq_zero.mp h0))]
    exact parseNetGo_none_inherited_error nse lines cfg.Reset false 0 hmtu
      (Or.inr hnone) (Or.inr hinh)
  · intro nse cfg
    exact ⟨rfl, rfl, rfl, rfl, rfl, rfl, rfl, rfl⟩

/-- Witness for C5 (amended): the concrete rejections of the spec —
`veth eth1` (missing bridge), `macvlan eth0 m0 badtype` (invalid type),
and `none` combined with a veth line — all fail. -/
theorem parsenet_rejections_witness :
    parseNetTokens (fun _ => false) witCfg false 0 ["veth", "eth1"]
      "veth eth1" = .fail (mkErr .InvalidValue 0 "Invalid veth in: veth eth1") ∧
    parseNetTokens (fun _ => false) witCfg false 0
      ["macvlan", "eth0", "m0", "badtype"] "macvlan eth0 m0 badtype" =
      .fail (mkErr .InvalidValue 0 "Invalid macvlan type badtype") ∧
    TNetCfg.ParseNet witCfg (fun _ => false) ["none", "veth eth1 br0"] =
      .error (mkErr .InvalidValue 0
        "none/host/inherited can't be mixed with other types") := by
  refine ⟨?_, ?_, ?_⟩
  · exact parsenet_rejections.1 (fun _ => false) witCfg false 0 "eth1" "veth eth1"
  · have h := parsenet_rejections.2.1 (fun _ => false) witCfg false 0
      "eth0" "m0" "badtype" "macvlan eth0 m0 badtype" (by decide)
    exact h
  · exact (parsenet_rejections.2.2.2.2 (fun _ => false) witCfg).1

-- ---------------------------------------------------------------------
-- C10: the `host` keyword and its field count
-- ---------------------------------------------------------------------

/-- C10: a specification line consisting of the single token `host` is
parsed exactly as `inherited`, while a `host <device>` line with exactly
two tokens is parsed identically to `steal <device>`; the token-level
equalities hold for every parse state and every device token, so the
meaning of `host` depends solely on the field count. The last two
conjuncts instantiate at raw lines and exhibit the resulting state. -/
theorem parsenet_host_field_count (nse₁ nse₂ : String → Bool) (cfg : TNetCfg)
    (ns : Bool) (idx : Nat) (d line₁ line₂ : String) :
    parseNetTokens nse₁ cfg ns idx ["host"] line₁ =
      parseNetTokens nse₂ cfg ns idx ["inherited"] line₂ ∧
    parseNetTokens nse₁ cfg ns idx ["host", d] line₁ =
      parseNetTokens nse₂ cfg ns idx ["steal", d] line₂ ∧
    parseNetLine nse₁ cfg ns idx "host" =
      .cont { cfg with NewNetNs := false, Inherited := true } ns idx ∧
    parseNetLine nse₁ cfg ns idx "host eth0" =
      .cont { cfg with Steal := cfg.Steal ++ ["eth0"] } ns idx := by
  exact ⟨rfl, rfl, rfl, rfl⟩
